import Mathlib

/-!
Shallow embedding of the FPL planning tool core (`tool.py`): the
fixture-difficulty resolver, the expected-points engine, the captaincy
scorer support, the lineup optimizer and the backtester's per-player
contribution.  Python floats are modelled by exact rationals, Python
dictionaries by association lists, fallible dictionary indexing by
`Option`, and in-place mutation of arguments by returning the post-call
state of the mutated argument explicitly.
-/

namespace FplTool

/-- Module constant `NEXT_N_GW = 5`, the lookahead horizon. -/
def NEXT_N_GW : Nat := 5

/-- Module constant `USE_THREAT_MODEL = True`, toggling the xG/xA model. -/
def USE_THREAT_MODEL : Bool := true

/-- A processed team record as produced by `get_processed_teams`:
`{"name": ..., "strength_d": ..., "strength_a": ...}`.  The optional
`short_name` models the `"short_name" in opponent` check in
`calculate_xp` (processed teams never carry the key). -/
structure Team where
  name : String
  strength_d : ℚ
  strength_a : ℚ
  short_name : Option String
deriving DecidableEq, Repr

/-- Dictionary of processed teams: team id to processed team record. -/
abbrev TeamsMap := List (Nat × Team)

/-- One entry of the custom FDR table: `{"H": ..., "A": ...}`, each key
optional (`dict.get` is used on it). -/
structure FdrEntry where
  H : Option Int
  A : Option Int
deriving DecidableEq, Repr

/-- Custom FDR table: opponent display name to entry. -/
abbrev CustomFdr := List (String × FdrEntry)

/-- A fixture record as consumed (and mutated) by `calculate_xp`.
`event` is `none` when the key is absent or `None`; `opponent` and `xp`
are the keys `calculate_xp` itself writes. -/
structure Fixture where
  event : Option Nat
  team_h : Nat
  team_a : Nat
  is_home : Bool
  difficulty : Option Int
  opponent : Option String
  xp : Option ℚ
deriving DecidableEq, Repr

/-- The fields of a fixture that `calculate_xp` never writes: everything
except the `opponent` and `xp` enrichment keys. -/
def Fixture.core (f : Fixture) : Option Nat × Nat × Nat × Bool × Option Int :=
  (f.event, f.team_h, f.team_a, f.is_home, f.difficulty)

/-- One history record (`element-summary` history entry).  `expected_goals`
and `expected_assists` are read with `game.get(key, 0) or 0`, hence optional. -/
structure HistoryEntry where
  round : Nat
  total_points : ℚ
  minutes : ℚ
  expected_goals : Option ℚ
  expected_assists : Option ℚ
  was_home : Bool
  opponent_team : Nat
deriving DecidableEq, Repr

/-- The player fields read by `calculate_xp` and the backtester. -/
structure XPlayer where
  id : Nat
  team : Nat
  position : Nat
  points_per_game : ℚ
  chance_of_playing : Option ℚ
  penalties_order : Option Nat
  direct_freekicks_order : Option Nat
  corners_and_indirect_freekicks_order : Option Nat
deriving DecidableEq, Repr

/-- Record form of `self.model_config`.  Every field is optional because each
read site uses `dict.get(key, fallback)`; `FPLManager.__init__` populates
all of them (see `defaultModelConfig`). -/
structure ModelConfig where
  form_weights : Option (List ℚ)
  fixture_diff_factor : Option ℚ
  home_boost : Option ℚ
  away_penalty : Option ℚ
  bonus_multiplier : Option ℚ
  clean_sheet_base : Option ℚ
deriving DecidableEq, Repr

/-- The configuration installed by `FPLManager.__init__`:
`form_weights [1.0, 0.9, 0.8, 0.7, 0.6]`, `fixture_diff_factor 0.05`,
`home_boost 1.05`, `away_penalty 0.95`, `bonus_multiplier 1.1`,
`clean_sheet_base 0.30`. -/
def defaultModelConfig : ModelConfig :=
  { form_weights := some [1, 9/10, 8/10, 7/10, 6/10]
    fixture_diff_factor := some (5/100)
    home_boost := some (105/100)
    away_penalty := some (95/100)
    bonus_multiplier := some (11/10)
    clean_sheet_base := some (30/100) }

/-- A raw bootstrap team record as consumed by `get_processed_teams`. -/
structure RawTeam where
  id : Nat
  name : String
  strength_defence_home : ℚ
  strength_defence_away : ℚ
  strength_attack_home : ℚ
  strength_attack_away : ℚ
deriving DecidableEq, Repr

/-- Embedding of `get_processed_teams`: builds the id-keyed team dictionary; the home
strength fields are used whenever `t["id"]` is truthy (nonzero), the away
fields otherwise. -/
def get_processed_teams (ts : List RawTeam) : TeamsMap :=
  ts.map (fun t =>
    (t.id,
      { name := t.name
        strength_d := if t.id ≠ 0 then t.strength_defence_home else t.strength_defence_away
        strength_a := if t.id ≠ 0 then t.strength_attack_home else t.strength_attack_away
        short_name := none }))

/-- The opponent id and home flag computed at the top of
`get_fixture_difficulty`: the subject is home iff it is `fixture["team_h"]`. -/
def fixtureOpponent (fixture : Fixture) (team_id : Nat) : Nat × Bool :=
  if fixture.team_h = team_id then (fixture.team_a, true) else (fixture.team_h, false)

/-- The custom-FDR consultation inside `get_fixture_difficulty`:
`if self.custom_fdr and opponent_name in self.custom_fdr:` followed by
reading the `"A"` key when the subject is home (opponent away) and the
`"H"` key when the subject is away (opponent home). -/
def customFdrValue (custom : CustomFdr) (opponent_name : String) (is_home : Bool) :
    Option Int :=
  if custom = [] then none
  else
    match List.lookup opponent_name custom with
    | none => none
    | some entry => if is_home then entry.A else entry.H

/-- Embedding of `get_fixture_difficulty`.  Returns `none` exactly when the Python code
would raise a `KeyError` looking up the opponent in `teams`.  The custom
value, when present, is returned unchanged; otherwise the opponent's mean
strength is bucketed into 2/3/4/5. -/
def get_fixture_difficulty (custom : CustomFdr) (fixture : Fixture) (team_id : Nat)
    (teams : TeamsMap) : Option Int :=
  let op := fixtureOpponent fixture team_id
  match List.lookup op.1 teams with
  | none => none
  | some opponent =>
    match customFdrValue custom opponent.name op.2 with
    | some custom_val => some custom_val
    | none =>
      let opponent_strength :=
        if op.2 then (opponent.strength_d + opponent.strength_a) / 2
        else (opponent.strength_d + opponent.strength_a) / 2
      some (if opponent_strength < 1050 then 2
            else if opponent_strength < 1150 then 3
            else if opponent_strength < 1250 then 4
            else 5)

/-- Embedding of `_calculate_fixture_multiplier`: `1.0 + ((3 - difficulty) * factor)`
with `factor = model_config.get("fixture_diff_factor", 0.08)`. -/
def calculate_fixture_multiplier (cfg : ModelConfig) (difficulty : Int) : ℚ :=
  let factor := cfg.fixture_diff_factor.getD (8/100)
  1 + ((3 - difficulty : Int) : ℚ) * factor

/-- Embedding of `_calculate_matchup_multiplier` (both position branches are verbatim
identical in the source). -/
def calculate_matchup_multiplier (player : XPlayer)
    (opponent_difficulty my_team_difficulty : Int) : ℚ :=
  if player.position = 1 ∨ player.position = 2 then
    if opponent_difficulty ≤ 2 then
      if my_team_difficulty ≤ 2 then 1 else 11/10
    else if 4 ≤ opponent_difficulty then
      if 4 ≤ my_team_difficulty then 1 else 9/10
    else 1
  else
    if opponent_difficulty ≤ 2 then
      if my_team_difficulty ≤ 2 then 1 else 11/10
    else if 4 ≤ opponent_difficulty then
      if 4 ≤ my_team_difficulty then 1 else 9/10
    else 1

/-- Python slice `history[-5:]`. -/
def takeLast (n : Nat) (l : List HistoryEntry) : List HistoryEntry :=
  l.drop (l.length - n)

/-- Embedding of `_calculate_weighted_form`: weighted average of `total_points` over the
last five games, most recent first, weights truncated to the shorter of
the two lists and re-normalised by their own sum. -/
def calculate_weighted_form (cfg : ModelConfig) (history : List HistoryEntry) : ℚ :=
  if history = [] then 0
  else
    let recent := takeLast 5 history
    let weights := cfg.form_weights.getD [1, 9/10, 8/10, 7/10, 6/10]
    let pairs := recent.reverse.zip weights
    let total_weighted_pts := (pairs.map (fun pr => pr.1.total_points * pr.2)).sum
    let total_weights := (pairs.map (fun pr => pr.2)).sum
    if 0 < total_weights then total_weighted_pts / total_weights else 0

/-- Embedding of `_calculate_weighted_metric`: same decay-weighted average for an
arbitrary per-game metric (the Python string key becomes a projection). -/
def calculate_weighted_metric (cfg : ModelConfig) (history : List HistoryEntry)
    (metric : HistoryEntry → ℚ) : ℚ :=
  if history = [] then 0
  else
    let recent := takeLast 5 history
    let weights := cfg.form_weights.getD [1, 9/10, 8/10, 7/10, 6/10]
    let pairs := recent.reverse.zip weights
    let total_weighted := (pairs.map (fun pr => metric pr.1 * pr.2)).sum
    let total_weights := (pairs.map (fun pr => pr.2)).sum
    if 0 < total_weights then total_weighted / total_weights else 0

/-- Embedding of `_calculate_weighted_minutes`. -/
def calculate_weighted_minutes (cfg : ModelConfig) (history : List HistoryEntry) : ℚ :=
  calculate_weighted_metric cfg history (fun g => g.minutes)

/-- Embedding of `_calculate_cs_probability`: `max(0.05, min(0.80, base + diff*0.10))`. -/
def calculate_cs_probability (cfg : ModelConfig)
    (my_team_difficulty opponent_difficulty : Int) : ℚ :=
  let diff := my_team_difficulty - opponent_difficulty
  let base_prob := cfg.clean_sheet_base.getD (30/100)
  let adjustment := (diff : ℚ) * (10/100)
  let prob := base_prob + adjustment
  max (5/100) (min (80/100) prob)

/-- Embedding of `_calculate_save_points`. -/
def calculate_save_points (my_team_difficulty opponent_difficulty : Int) : ℚ :=
  let diff := opponent_difficulty - my_team_difficulty
  if 2 ≤ diff then 1 else if 0 < diff then 1/2 else 1/5

/-- Python's banker's rounding to an integer, on exact rationals. -/
def roundHalfEven (x : ℚ) : ℤ :=
  let f := Rat.floor x
  let r := x - f
  if r < 1/2 then f
  else if 1/2 < r then f + 1
  else if f % 2 = 0 then f else f + 1

/-- Python `round(x, k)`. -/
def roundTo (k : Nat) (x : ℚ) : ℚ :=
  (roundHalfEven (x * 10 ^ k) : ℚ) / 10 ^ k

/-- Python `round(x, 2)`. -/
def round2 (x : ℚ) : ℚ := roundTo 2 x

/-- Python `round(x, 1)`. -/
def round1 (x : ℚ) : ℚ := roundTo 1 x

/-- The per-gameweek breakdown dictionary built inside `calculate_xp`'s
fixture loop.  `pen_bonus` and `set_piece_bonus` model the keys that are
only written when the corresponding bonus applies. -/
structure Breakdown where
  opponent : String
  is_home : Bool
  difficulty : Int
  base_attack : ℚ
  fixture_mult : ℚ
  matchup_mult : ℚ
  venue_mult : ℚ
  cs_prob : ℚ
  expected_mins : ℚ
  app_points : ℚ
  save_points : ℚ
  clean_sheet_points : ℚ
  attack_points : ℚ
  pen_bonus : Option ℚ
  set_piece_bonus : Option ℚ
  chance_of_playing : ℚ
  final_xp : ℚ
deriving DecidableEq, Repr

/-- The effect of one iteration of `calculate_xp`'s fixture loop on the
accumulated state: the xP added to the running total, the per-gameweek
entry written to `gw_points`/`breakdowns` (absent when the fixture's
`event` is falsy or the fixture is skipped), and the post-iteration state
of the fixture record itself. -/
structure FixtureOutcome where
  final_xp : ℚ
  entry : Option (Nat × ℚ × Breakdown)
  fixture_out : Fixture
deriving DecidableEq, Repr

/-- The straight-line part of `calculate_xp`'s fixture loop body for one
fixture, once the opponent record and the two difficulty values have been
resolved, given the pre-loop quantities (`base_attack_potential`,
`expected_app_points`, `expected_minutes`). -/
def xpFixtureBody (cfg : ModelConfig) (player : XPlayer) (opponent : Team)
    (difficulty my_team_difficulty : Int)
    (base_attack_potential expected_app_points expected_minutes : ℚ)
    (f : Fixture) : FixtureOutcome :=
  let fixture_mult := calculate_fixture_multiplier cfg difficulty
      let matchup_mult := calculate_matchup_multiplier player difficulty my_team_difficulty
      let home_boost := cfg.home_boost.getD (11/10)
      let away_penalty := cfg.away_penalty.getD (95/100)
      let venue_mult := if f.is_home then home_boost else away_penalty
      let cs_prob0 := calculate_cs_probability cfg my_team_difficulty difficulty
      let cs_prob := if f.is_home then cs_prob0 + 5/100 else cs_prob0
      let bd0 : Breakdown :=
        { opponent := opponent.name
          is_home := f.is_home
          difficulty := difficulty
          base_attack := round2 base_attack_potential
          fixture_mult := round2 fixture_mult
          matchup_mult := round2 matchup_mult
          venue_mult := round2 venue_mult
          cs_prob := round2 cs_prob
          expected_mins := round1 expected_minutes
          app_points := 0
          save_points := 0
          clean_sheet_points := 0
          attack_points := 0
          pen_bonus := none
          set_piece_bonus := none
          chance_of_playing := 0
          final_xp := 0 }
      let r : ℚ × Breakdown :=
        if USE_THREAT_MODEL then
          let bd1 := { bd0 with app_points := expected_app_points }
          let pr : ℚ × Breakdown :=
            if player.position = 1 then
              let cs_pts := cs_prob * 4
              let save_pts := calculate_save_points my_team_difficulty difficulty
              (cs_pts + save_pts,
                { bd1 with clean_sheet_points := round2 cs_pts,
                           save_points := round2 save_pts })
            else if player.position = 2 then
              let cs_pts := cs_prob * 4
              let att_pts := base_attack_potential * (1/10) * matchup_mult
              (cs_pts + att_pts,
                { bd1 with clean_sheet_points := round2 cs_pts,
                           attack_points := round2 att_pts })
            else if player.position = 3 then
              let cs_pts := cs_prob * 1
              let att_pts := base_attack_potential * (8/10) * matchup_mult
              (cs_pts + att_pts,
                { bd1 with clean_sheet_points := round2 cs_pts,
                           attack_points := round2 att_pts })
            else if player.position = 4 then
              let att_pts := base_attack_potential * 1 * matchup_mult
              (att_pts, { bd1 with attack_points := round2 att_pts })
            else (0, bd1)
          (expected_app_points + pr.1 * (fixture_mult * venue_mult), pr.2)
        else
          let step_xp : ℚ :=
            if player.position = 1 then
              cs_prob * 4 + calculate_save_points my_team_difficulty difficulty
            else if player.position = 2 then
              cs_prob * 4 + base_attack_potential * (1/10) * matchup_mult
            else if player.position = 3 then
              cs_prob * 1 + base_attack_potential * (8/10) * matchup_mult
            else if player.position = 4 then
              base_attack_potential * 1 * matchup_mult
            else 0
          (step_xp * (fixture_mult * venue_mult), bd0)
      let r1 : ℚ × Breakdown :=
        if player.penalties_order = some 1 then
          (r.1 * (115/100), { r.2 with pen_bonus := some (115/100) })
        else r
      let r2 : ℚ × Breakdown :=
        if player.direct_freekicks_order = some 1
            ∨ player.corners_and_indirect_freekicks_order = some 1 then
          (r1.1 * (105/100), { r1.2 with set_piece_bonus := some (105/100) })
        else r1
      let chance := player.chance_of_playing.getD 100
      let prob := chance / 100
      let final_gw_xp := r2.1 * prob
      let bdF := { r2.2 with chance_of_playing := chance, final_xp := round2 final_gw_xp }
      { final_xp := final_gw_xp
        entry :=
          match f.event with
          | some e => if e ≠ 0 then some (e, round2 final_gw_xp, bdF) else none
          | none => none
        fixture_out :=
          { f with opponent := some (opponent.short_name.getD opponent.name)
                   xp := some final_gw_xp } }

/-- The body of `calculate_xp`'s fixture loop for one fixture.  `none`
models a `KeyError` raised by one of the two `get_fixture_difficulty`
calls; an unknown opponent id is skipped (`continue`) and yields a zero
outcome with the fixture untouched. -/
def xpFixtureCore (cfg : ModelConfig) (custom : CustomFdr) (player : XPlayer)
    (teams : TeamsMap) (base_attack_potential expected_app_points expected_minutes : ℚ)
    (f : Fixture) : Option FixtureOutcome :=
  let opponent_id := if f.is_home then f.team_a else f.team_h
  match List.lookup opponent_id teams with
  | none => some { final_xp := 0, entry := none, fixture_out := f }
  | some opponent =>
    match get_fixture_difficulty custom f player.team teams,
          get_fixture_difficulty custom f opponent_id teams with
    | some difficulty, some my_team_difficulty =>
      some (xpFixtureBody cfg player opponent difficulty my_team_difficulty
        base_attack_potential expected_app_points expected_minutes f)
    | _, _ => none

/-- The accumulated state of `calculate_xp`: running total, the
`gw_points` and `breakdowns` dictionaries, and the post-call state of the
fixture records processed so far. -/
structure XpState where
  total_xp : ℚ
  gw_points : List (String × ℚ)
  breakdowns : List (String × Breakdown)
  fixtures_out : List Fixture
deriving DecidableEq, Repr

/-- The accumulator state at the top of `calculate_xp`'s fixture loop:
zero total and empty dictionaries. -/
def initXpState : XpState :=
  { total_xp := 0, gw_points := [], breakdowns := [], fixtures_out := [] }

/-- Python `dict[key] = value`: replace in place when the key exists,
append otherwise (insertion order preserved). -/
def assocSet {α : Type} (m : List (String × α)) (k : String) (v : α) :
    List (String × α) :=
  if (List.lookup k m).isSome then
    m.map (fun pr => if pr.1 = k then (k, v) else pr)
  else m ++ [(k, v)]

/-- Fold one fixture outcome into the accumulated state: add to the
total, write the per-gameweek entries under `"GW{event}"` when present,
and record the fixture's post-call state. -/
def applyOutcome (st : XpState) (o : FixtureOutcome) : XpState :=
  { total_xp := st.total_xp + o.final_xp
    gw_points :=
      match o.entry with
      | some pr => assocSet st.gw_points ("GW" ++ toString pr.1) pr.2.1
      | none => st.gw_points
    breakdowns :=
      match o.entry with
      | some pr => assocSet st.breakdowns ("GW" ++ toString pr.1) pr.2.2
      | none => st.breakdowns
    fixtures_out := st.fixtures_out ++ [o.fixture_out] }

/-- Run an option-producing function over a list, collecting the results:
a Python loop whose body may raise. -/
def optionMapList {α β : Type} (f : α → Option β) : List α → Option (List β)
  | [] => some []
  | a :: l =>
    match f a with
    | none => none
    | some b => (optionMapList f l).map (fun bs => b :: bs)

/-- The fixture loop of `calculate_xp`: fold the per-fixture outcomes into
the accumulated state, aborting if an iteration raises. -/
def xpLoop (cfg : ModelConfig) (custom : CustomFdr) (player : XPlayer)
    (teams : TeamsMap) (bap app mins : ℚ) : XpState → List Fixture → Option XpState
  | st, [] => some st
  | st, f :: t =>
    match xpFixtureCore cfg custom player teams bap app mins f with
    | none => none
    | some o => xpLoop cfg custom player teams bap app mins (applyOutcome st o) t

/-- The expected appearance points computed before the fixture loop of
`calculate_xp`: 2.0 for weighted minutes of at least 60, 1.0 for positive
weighted minutes, else 0.0. -/
def xpAppPoints (cfg : ModelConfig) (history : List HistoryEntry) : ℚ :=
  let expected_minutes := calculate_weighted_minutes cfg history
  if 60 ≤ expected_minutes then 2 else if 0 < expected_minutes then 1 else 0

/-- The base attacking potential computed before the fixture loop of
`calculate_xp`: the xG/xA threat model when `USE_THREAT_MODEL` is set,
the legacy form/points-per-game blend otherwise. -/
def xpBasePotential (cfg : ModelConfig) (player : XPlayer)
    (history : List HistoryEntry) : ℚ :=
  if USE_THREAT_MODEL then
    let weighted_xg := calculate_weighted_metric cfg history (fun g => g.expected_goals.getD 0)
    let weighted_xa := calculate_weighted_metric cfg history (fun g => g.expected_assists.getD 0)
    let pts_per_goal : ℚ :=
      if player.position = 1 ∨ player.position = 2 then 6
      else if player.position = 3 then 5
      else 4
    let xp_goals := weighted_xg * pts_per_goal
    let xp_assists := weighted_xa * 3
    let bonus_mult := cfg.bonus_multiplier.getD (13/10)
    (xp_goals + xp_assists) * bonus_mult
  else
    let weighted_form := calculate_weighted_form cfg history
    let expected_minutes := calculate_weighted_minutes cfg history
    let minutes_ratio := min 1 (expected_minutes / 90)
    weighted_form * (60/100) + player.points_per_game * minutes_ratio * (40/100)

/-- Embedding of `calculate_xp`.  Returns the total xP, the per-gameweek points map,
the per-gameweek breakdowns, and the post-call state of the `fixtures`
argument (the first `NEXT_N_GW` records are enriched in place with
`opponent` and `xp`).  `none` models an uncaught `KeyError`. -/
def calculate_xp (cfg : ModelConfig) (custom : CustomFdr) (player : XPlayer)
    (teams : TeamsMap) (fixtures : List Fixture) (history : List HistoryEntry) :
    Option XpState :=
  let upcoming := fixtures.take NEXT_N_GW
  (xpLoop cfg custom player teams (xpBasePotential cfg player history)
      (xpAppPoints cfg history) (calculate_weighted_minutes cfg history)
      initXpState
      upcoming).map
    (fun st => { st with fixtures_out := st.fixtures_out ++ fixtures.drop NEXT_N_GW })

/-! ### Lineup optimizer (`_optimize_lineup`) -/

/-- The squad-member fields read by `_optimize_lineup`. -/
structure SquadPlayer where
  id : Nat
  position : Nat
  xp : ℚ
  cap_score : ℚ
deriving DecidableEq, Repr

/-- Python `squad_xp.sort(key=lambda x: x["xp"], reverse=True)`: a stable
descending sort by `xp`, modelled by insertion sort with the strict
relation (ties keep their input order, as CPython's stable sort does). -/
def sortByXpDesc (l : List SquadPlayer) : List SquadPlayer :=
  l.insertionSort (fun a b => b.xp < a.xp)

/-- Python `starters.sort(key=lambda x: x["cap_score"], reverse=True)`. -/
def sortByCapDesc (l : List SquadPlayer) : List SquadPlayer :=
  l.insertionSort (fun a b => b.cap_score < a.cap_score)

/-- The mutable state of the greedy fill loop in `_optimize_lineup`. -/
structure FillState where
  starters : List SquadPlayer
  bench : List SquadPlayer
  n_def : Nat
  n_mid : Nat
  n_fwd : Nat
deriving DecidableEq, Repr

/-- One iteration of `_optimize_lineup`'s fill loop over
`remaining_outfield`. -/
def fillStep (st : FillState) (p : SquadPlayer) : FillState :=
  if st.starters.length = 11 then { st with bench := st.bench ++ [p] }
  else if p.position = 2 ∧ st.n_def < 5 then
    { st with starters := st.starters ++ [p], n_def := st.n_def + 1 }
  else if p.position = 3 ∧ st.n_mid < 5 then
    { st with starters := st.starters ++ [p], n_mid := st.n_mid + 1 }
  else if p.position = 4 ∧ st.n_fwd < 3 then
    { st with starters := st.starters ++ [p], n_fwd := st.n_fwd + 1 }
  else { st with bench := st.bench ++ [p] }

/-- The squad after the in-place `squad_xp.sort(...)` at the top of
`_optimize_lineup`. -/
def olSorted (squad : List SquadPlayer) : List SquadPlayer := sortByXpDesc squad

/-- The position buckets (`gks`, `defs`, `mids`, `fwds`), each a filter of
the sorted squad. -/
def olBucket (k : Nat) (squad : List SquadPlayer) : List SquadPlayer :=
  (olSorted squad).filter (fun p => p.position == k)

/-- The starters list after the mandatory picks: `gks[0]` (when present),
`defs[:3]`, `mids[:2]`, `fwds[:1]`. -/
def olStarters1 (squad : List SquadPlayer) : List SquadPlayer :=
  (olBucket 1 squad).take 1 ++ (olBucket 2 squad).take 3
    ++ (olBucket 3 squad).take 2 ++ (olBucket 4 squad).take 1

/-- The bench after the goalkeeper step: `gks[1:]` when a second
goalkeeper exists. -/
def olBench0 (squad : List SquadPlayer) : List SquadPlayer :=
  if 1 < (olBucket 1 squad).length then (olBucket 1 squad).drop 1 else []

/-- Python `remaining_outfield = defs[3:] + mids[2:] + fwds[1:]`, re-sorted by xp
descending. -/
def olRemaining (squad : List SquadPlayer) : List SquadPlayer :=
  sortByXpDesc ((olBucket 2 squad).drop 3 ++ (olBucket 3 squad).drop 2
    ++ (olBucket 4 squad).drop 1)

/-- The fill-loop state after the greedy pass, seeded with the mandatory
starters and the per-position starter counts recomputed from them. -/
def olFilled (squad : List SquadPlayer) : FillState :=
  (olRemaining squad).foldl fillStep
    { starters := olStarters1 squad
      bench := olBench0 squad
      n_def := ((olStarters1 squad).filter (fun p => p.position == 2)).length
      n_mid := ((olStarters1 squad).filter (fun p => p.position == 3)).length
      n_fwd := ((olStarters1 squad).filter (fun p => p.position == 4)).length }

/-- The result of `_optimize_lineup`; `squad_out` is the post-call state
of the caller's squad list (sorted in place by xp at the top of the
function). -/
structure LineupResult where
  starters : List SquadPlayer
  bench : List SquadPlayer
  captain : Option SquadPlayer
  vice_captain : Option SquadPlayer
  squad_out : List SquadPlayer
deriving DecidableEq, Repr

/-- Embedding of `_optimize_lineup`: mandatory picks, greedy fill under the per-position
caps, then the captaincy re-sort with `captain = starters[0]` and
`vice_captain = starters[1]` when they exist. -/
def optimize_lineup (squad : List SquadPlayer) : LineupResult :=
  let filled := olFilled squad
  let starters_sorted := sortByCapDesc filled.starters
  { starters := starters_sorted
    bench := filled.bench
    captain := starters_sorted.head?
    vice_captain := starters_sorted[1]?
    squad_out := olSorted squad }

/-! ### Backtester (`get_model_performance`), per-player contribution -/

/-- The body of `get_model_performance`'s inner player loop: split the
history around gameweek `gw`, rebuild one synthetic fixture per game
actually played in `gw`, run `calculate_xp` on the pre-`gw` history, and
return this player's (predicted, actual) contribution to the gameweek
sums, captain doubled. -/
def playerGwContribution (cfg : ModelConfig) (custom : CustomFdr) (player : XPlayer)
    (teams : TeamsMap) (gw : Nat) (history : List HistoryEntry)
    (captain_id : Option Nat) : Option (ℚ × ℚ) :=
  let past_history := history.filter (fun h => h.round < gw)
  let actual_games := history.filter (fun h => h.round == gw)
  let actual_points := (actual_games.map (fun h => h.total_points)).sum
  let mock_upcoming : Option (List Fixture) :=
    optionMapList (fun game =>
      let fix_for_calc : Fixture :=
        { event := none
          team_h := if game.was_home then player.team else game.opponent_team
          team_a := if game.was_home then game.opponent_team else player.team
          is_home := game.was_home
          difficulty := none
          opponent := none
          xp := none }
      (get_fixture_difficulty custom fix_for_calc player.team teams).map
        (fun d => { fix_for_calc with event := some game.round, difficulty := some d }))
      actual_games
  match mock_upcoming with
  | none => none
  | some ups =>
    (calculate_xp cfg custom player teams ups past_history).map (fun st =>
      let multiplier : ℚ := if some player.id = captain_id then 2 else 1
      (st.total_xp * multiplier, actual_points * multiplier))

/-- Number of members of a squad list with the given position code. -/
def posCount (k : Nat) (l : List SquadPlayer) : Nat :=
  l.countP (fun p => p.position == k)

/-! ### Concrete instances used by counterexamples and witnesses -/

/-- A processed team of average strength (id 1 in `teamsEx`). -/
def teamMine : Team :=
  { name := "Mine", strength_d := 1000, strength_a := 1000, short_name := none }

/-- A processed team of average strength (id 2 in `teamsEx`). -/
def teamOpp : Team :=
  { name := "Opp", strength_d := 1000, strength_a := 1000, short_name := none }

/-- A two-team index. -/
def teamsEx : TeamsMap := [(1, teamMine), (2, teamOpp)]

/-- A gameweek-1 home fixture for team 1 against team 2. -/
def fxEx : Fixture :=
  { event := some 1, team_h := 1, team_a := 2, is_home := true,
    difficulty := none, opponent := none, xp := none }

/-- An away fixture for team 1 at team 2. -/
def fxAway : Fixture :=
  { event := some 1, team_h := 2, team_a := 1, is_home := false,
    difficulty := none, opponent := none, xp := none }

/-- A home fixture for team 1 whose event key is absent. -/
def fxNoEvent : Fixture :=
  { event := none, team_h := 1, team_a := 2, is_home := true,
    difficulty := none, opponent := none, xp := none }

/-- A goalkeeper of team 1 with no flags set. -/
def gkEx : XPlayer :=
  { id := 7, team := 1, position := 1, points_per_game := 0,
    chance_of_playing := none, penalties_order := none,
    direct_freekicks_order := none, corners_and_indirect_freekicks_order := none }

/-- A forward of team 1 with no flags set. -/
def fwdEx : XPlayer :=
  { id := 8, team := 1, position := 4, points_per_game := 0,
    chance_of_playing := none, penalties_order := none,
    direct_freekicks_order := none, corners_and_indirect_freekicks_order := none }

/-- A custom FDR table giving team 2 an out-of-range away difficulty of 9. -/
def cexFdr : CustomFdr := [("Opp", { H := none, A := some 9 })]

/-- A custom FDR table giving team 2 home difficulty 5 and away difficulty 4. -/
def c4Fdr : CustomFdr := [("Opp", { H := some 5, A := some 4 })]

/-- Two squad members whose xp order is opposite to their list order. -/
def pLow : SquadPlayer := { id := 1, position := 2, xp := 1, cap_score := 1 }

/-- Second member of the two-player squad, with the higher xp. -/
def pHigh : SquadPlayer := { id := 2, position := 3, xp := 2, cap_score := 2 }

/-- The 15-player squad of the repository's `test_optimize_lineup` unit
test: 2 GK, 5 DEF, 5 MID, 3 FWD. -/
def squadEx : List SquadPlayer :=
  [⟨1, 1, 4, 4⟩, ⟨2, 1, 3, 3⟩,
   ⟨10, 2, 3, 3⟩, ⟨11, 2, 4, 4⟩, ⟨12, 2, 5, 5⟩, ⟨13, 2, 6, 6⟩, ⟨14, 2, 7, 7⟩,
   ⟨20, 3, 4, 5⟩, ⟨21, 3, 5, 6⟩, ⟨22, 3, 6, 7⟩, ⟨23, 3, 7, 8⟩, ⟨24, 3, 8, 9⟩,
   ⟨30, 4, 5, 6⟩, ⟨31, 4, 6, 7⟩, ⟨32, 4, 7, 8⟩]

/-- A history entry in round 3 with 90 minutes and 5 points. -/
def histR3 : HistoryEntry :=
  { round := 3, total_points := 5, minutes := 90, expected_goals := some (1/2),
    expected_assists := some (1/5), was_home := true, opponent_team := 2 }

/-- A raw bootstrap team record with distinct home and away strengths. -/
def rawTeamEx : RawTeam :=
  { id := 1, name := "Mine", strength_defence_home := 1200,
    strength_defence_away := 1000, strength_attack_home := 1300,
    strength_attack_away := 1000 }

/-! ### Helper lemmas about the expected-points loop -/

theorem body_fixture_core (cfg : ModelConfig) (player : XPlayer) (opponent : Team)
    (d md : Int) (bap app mins : ℚ) (f : Fixture) :
    (xpFixtureBody cfg player opponent d md bap app mins f).fixture_out.core = f.core := rfl

theorem body_entry_falsy (cfg : ModelConfig) (player : XPlayer) (opponent : Team)
    (d md : Int) (bap app mins : ℚ) (f : Fixture)
    (hev : f.event = none ∨ f.event = some 0) :
    (xpFixtureBody cfg player opponent d md bap app mins f).entry = none := by
  rcases hev with h | h <;> simp [xpFixtureBody, h]

theorem body_final_fwd_zero (cfg : ModelConfig) (player : XPlayer) (opponent : Team)
    (d md : Int) (mins : ℚ) (f : Fixture) (hpos : player.position = 4) :
    (xpFixtureBody cfg player opponent d md 0 0 mins f).final_xp = 0 := by
  simp only [xpFixtureBody, hpos, USE_THREAT_MODEL]
  norm_num
  split_ifs <;> simp

theorem core_eq_cases {cfg : ModelConfig} {custom : CustomFdr} {player : XPlayer}
    {teams : TeamsMap} {bap app mins : ℚ} {f : Fixture} {o : FixtureOutcome}
    (h : xpFixtureCore cfg custom player teams bap app mins f = some o) :
    o = { final_xp := 0, entry := none, fixture_out := f }
      ∨ ∃ opponent d md,
          o = xpFixtureBody cfg player opponent d md bap app mins f := by
  simp only [xpFixtureCore] at h
  rcases hl : List.lookup (if f.is_home then f.team_a else f.team_h) teams with _ | opponent
  · rw [hl] at h
    simp only [Option.some.injEq] at h
    exact Or.inl h.symm
  · rw [hl] at h
    rcases h1 : get_fixture_difficulty custom f player.team teams with _ | d
    · rw [h1] at h; simp at h
    · rcases h2 : get_fixture_difficulty custom f
          (if f.is_home then f.team_a else f.team_h) teams with _ | md
      · rw [h1, h2] at h; simp at h
      · rw [h1, h2] at h
        simp only [Option.some.injEq] at h
        exact Or.inr ⟨opponent, d, md, h.symm⟩

theorem core_fixture_core {cfg custom player teams bap app mins f o}
    (h : xpFixtureCore cfg custom player teams bap app mins f = some o) :
    o.fixture_out.core = f.core := by
  rcases core_eq_cases h with rfl | ⟨opp, d, md, rfl⟩
  · rfl
  · exact body_fixture_core cfg player opp d md bap app mins f

theorem core_entry_falsy {cfg custom player teams bap app mins f o}
    (hev : f.event = none ∨ f.event = some 0)
    (h : xpFixtureCore cfg custom player teams bap app mins f = some o) :
    o.entry = none := by
  rcases core_eq_cases h with rfl | ⟨opp, d, md, rfl⟩
  · rfl
  · exact body_entry_falsy cfg player opp d md bap app mins f hev

theorem core_final_fwd_zero {cfg custom player teams mins f o}
    (hpos : player.position = 4)
    (h : xpFixtureCore cfg custom player teams 0 0 mins f = some o) :
    o.final_xp = 0 := by
  rcases core_eq_cases h with rfl | ⟨opp, d, md, rfl⟩
  · rfl
  · exact body_final_fwd_zero cfg player opp d md mins f hpos

theorem xpLoop_eq (cfg : ModelConfig) (custom : CustomFdr) (player : XPlayer)
    (teams : TeamsMap) (bap app mins : ℚ) (l : List Fixture) :
    ∀ st : XpState,
      xpLoop cfg custom player teams bap app mins st l
        = (optionMapList (xpFixtureCore cfg custom player teams bap app mins) l).map
            (fun outs => outs.foldl applyOutcome st) := by
  induction l with
  | nil => intro st; simp [xpLoop, optionMapList]
  | cons f t ih =>
    intro st
    cases h : xpFixtureCore cfg custom player teams bap app mins f with
    | none => simp [xpLoop, optionMapList, h]
    | some o =>
      simp only [xpLoop, optionMapList, h, ih]
      cases optionMapList (xpFixtureCore cfg custom player teams bap app mins) t with
      | none => simp
      | some outs => simp [List.foldl_cons]

theorem applyList_total (outs : List FixtureOutcome) :
    ∀ st : XpState,
      (outs.foldl applyOutcome st).total_xp
        = st.total_xp + (outs.map FixtureOutcome.final_xp).sum := by
  induction outs with
  | nil => intro st; simp
  | cons o t ih =>
    intro st
    rw [List.foldl_cons, ih]
    simp [applyOutcome]
    ring

theorem applyList_fixtures (outs : List FixtureOutcome) :
    ∀ st : XpState,
      (outs.foldl applyOutcome st).fixtures_out
        = st.fixtures_out ++ outs.map FixtureOutcome.fixture_out := by
  induction outs with
  | nil => intro st; simp
  | cons o t ih =>
    intro st
    rw [List.foldl_cons, ih]
    simp [applyOutcome]

theorem applyList_maps (outs : List FixtureOutcome) :
    ∀ st₁ st₂ : XpState, st₁.gw_points = st₂.gw_points →
      st₁.breakdowns = st₂.breakdowns →
      (outs.foldl applyOutcome st₁).gw_points = (outs.foldl applyOutcome st₂).gw_points
        ∧ (outs.foldl applyOutcome st₁).breakdowns
            = (outs.foldl applyOutcome st₂).breakdowns := by
  induction outs with
  | nil => intro _ _ hg hb; exact ⟨hg, hb⟩
  | cons o t ih =>
    intro st₁ st₂ hg hb
    rw [List.foldl_cons, List.foldl_cons]
    apply ih
    · cases ho : o.entry <;> simp [applyOutcome, ho, hg]
    · cases ho : o.entry <;> simp [applyOutcome, ho, hb]

theorem applyOutcome_maps_none (st : XpState) {o : FixtureOutcome}
    (h : o.entry = none) :
    (applyOutcome st o).gw_points = st.gw_points
      ∧ (applyOutcome st o).breakdowns = st.breakdowns := by
  simp [applyOutcome, h]

theorem mapCore_fixtures {cfg custom player teams bap app mins} :
    ∀ (l : List Fixture) (outs : List FixtureOutcome),
      optionMapList (xpFixtureCore cfg custom player teams bap app mins) l = some outs →
      outs.map (fun o => o.fixture_out.core) = l.map Fixture.core := by
  intro l
  induction l with
  | nil => intro outs h; simp [optionMapList] at h; simp [← h]
  | cons f t ih =>
    intro outs h
    simp only [optionMapList] at h
    cases hf : xpFixtureCore cfg custom player teams bap app mins f with
    | none => rw [hf] at h; simp at h
    | some o =>
      rw [hf] at h
      cases ht : optionMapList (xpFixtureCore cfg custom player teams bap app mins) t with
      | none => rw [ht] at h; simp at h
      | some ts =>
        rw [ht] at h
        simp at h
        obtain rfl : outs = o :: ts := h.symm
        simp [core_fixture_core hf, ih ts ht]

theorem mapCore_fwd_zero {cfg custom player teams mins}
    (hpos : player.position = 4) :
    ∀ (l : List Fixture) (outs : List FixtureOutcome),
      optionMapList (xpFixtureCore cfg custom player teams 0 0 mins) l = some outs →
      (outs.map FixtureOutcome.final_xp).sum = 0 := by
  intro l
  induction l with
  | nil => intro outs h; simp [optionMapList] at h; subst h; simp
  | cons f t ih =>
    intro outs h
    simp only [optionMapList] at h
    cases hf : xpFixtureCore cfg custom player teams 0 0 mins f with
    | none => rw [hf] at h; simp at h
    | some o =>
      rw [hf] at h
      cases ht : optionMapList (xpFixtureCore cfg custom player teams 0 0 mins) t with
      | none => rw [ht] at h; simp at h
      | some ts =>
        rw [ht] at h
        simp at h
        obtain rfl : outs = o :: ts := h.symm
        simp [core_final_fwd_zero hpos hf, ih ts ht]

theorem optionMapList_append {α β : Type} (f : α → Option β) :
    ∀ l₁ l₂ : List α,
      optionMapList f (l₁ ++ l₂)
        = (optionMapList f l₁).bind
            (fun b₁ => (optionMapList f l₂).map (fun b₂ => b₁ ++ b₂)) := by
  intro l₁
  induction l₁ with
  | nil =>
    intro l₂
    simp only [List.nil_append, optionMapList, Option.some_bind]
    cases optionMapList f l₂ <;> simp
  | cons a t ih =>
    intro l₂
    simp only [List.cons_append, optionMapList]
    cases hf : f a with
    | none => simp
    | some b =>
      dsimp only
      rw [List.append_eq, ih l₂]
      cases optionMapList f t with
      | none => simp
      | some bt =>
        cases optionMapList f l₂ with
        | none => simp
        | some b₂ => simp

theorem calculate_xp_nil (cfg : ModelConfig) (custom : CustomFdr) (player : XPlayer)
    (teams : TeamsMap) (history : List HistoryEntry) :
    calculate_xp cfg custom player teams [] history
      = some initXpState := by
  simp [calculate_xp, xpLoop]

theorem xpBasePotential_nil (cfg : ModelConfig) (player : XPlayer) :
    xpBasePotential cfg player [] = 0 := by
  simp [xpBasePotential, USE_THREAT_MODEL, calculate_weighted_metric]

theorem xpAppPoints_nil (cfg : ModelConfig) : xpAppPoints cfg [] = 0 := by
  have h : calculate_weighted_minutes cfg [] = 0 := by
    simp [calculate_weighted_minutes, calculate_weighted_metric]
  simp [xpAppPoints, h]

/-! ### Helper lemmas about the lineup optimizer -/

theorem mem_olBucket {k : Nat} {squad : List SquadPlayer} {p : SquadPlayer}
    (h : p ∈ olBucket k squad) : p.position = k := by
  have := List.of_mem_filter h
  simpa using this

theorem posCount_sum_le (l : List SquadPlayer) :
    posCount 1 l + posCount 2 l + posCount 3 l + posCount 4 l ≤ l.length := by
  induction l with
  | nil => simp [posCount]
  | cons a t ih =>
    simp only [posCount, List.countP_cons, List.length_cons] at *
    by_cases h1 : a.position = 1 <;> by_cases h2 : a.position = 2 <;>
      by_cases h3 : a.position = 3 <;> by_cases h4 : a.position = 4 <;>
      simp [h1, h2, h3, h4] at * <;> omega

theorem posCount_perm {l₁ l₂ : List SquadPlayer} (h : l₁.Perm l₂) (k : Nat) :
    posCount k l₁ = posCount k l₂ :=
  h.countP_eq _

theorem olBucket_length (k : Nat) (squad : List SquadPlayer) :
    (olBucket k squad).length = posCount k squad := by
  unfold olBucket olSorted sortByXpDesc
  rw [← List.countP_eq_length_filter]
  exact (List.perm_insertionSort _ squad).countP_eq _

theorem countP_all_pos {l : List SquadPlayer} {k : Nat}
    (hall : ∀ p ∈ l, p.position = k) :
    l.countP (fun p => p.position == k) = l.length :=
  List.countP_eq_length.mpr (fun a ha => by simp [hall a ha])

theorem countP_none_pos {l : List SquadPlayer} {k j : Nat}
    (hall : ∀ p ∈ l, p.position = k) (hne : k ≠ j) :
    l.countP (fun p => p.position == j) = 0 :=
  List.countP_eq_zero.mpr (fun a ha => by simp [hall a ha, hne])

theorem filter_all_pos {l : List SquadPlayer} {k : Nat}
    (hall : ∀ p ∈ l, p.position = k) :
    l.filter (fun p => p.position == k) = l :=
  List.filter_eq_self.mpr (fun a ha => by simp [hall a ha])

theorem filter_none_pos {l : List SquadPlayer} {k j : Nat}
    (hall : ∀ p ∈ l, p.position = k) (hne : k ≠ j) :
    l.filter (fun p => p.position == j) = [] := by
  rw [List.filter_eq_nil_iff]
  intro a ha
  simp [hall a ha, hne]

theorem mem_take_olBucket {k n : Nat} {squad : List SquadPlayer} {p : SquadPlayer}
    (h : p ∈ (olBucket k squad).take n) : p.position = k :=
  mem_olBucket (List.mem_of_mem_take h)

theorem mem_drop_olBucket {k n : Nat} {squad : List SquadPlayer} {p : SquadPlayer}
    (h : p ∈ (olBucket k squad).drop n) : p.position = k :=
  mem_olBucket (List.mem_of_mem_drop h)

theorem mem_olRemaining {squad : List SquadPlayer} {p : SquadPlayer}
    (h : p ∈ olRemaining squad) :
    p ∈ (olBucket 2 squad).drop 3 ∨ p ∈ (olBucket 3 squad).drop 2
      ∨ p ∈ (olBucket 4 squad).drop 1 := by
  unfold olRemaining sortByXpDesc at h
  have := (List.perm_insertionSort _ _).mem_iff.mp h
  simpa using this

theorem mem_olRemaining_pos {squad : List SquadPlayer} {p : SquadPlayer}
    (h : p ∈ olRemaining squad) :
    p.position = 2 ∨ p.position = 3 ∨ p.position = 4 := by
  rcases mem_olRemaining h with h' | h' | h'
  · exact Or.inl (mem_drop_olBucket h')
  · exact Or.inr (Or.inl (mem_drop_olBucket h'))
  · exact Or.inr (Or.inr (mem_drop_olBucket h'))

theorem fillStep_full {st : FillState} {p : SquadPlayer}
    (h : st.starters.length = 11) :
    fillStep st p = { st with bench := st.bench ++ [p] } := by
  simp [fillStep, h]

theorem fillStep_add2 {st : FillState} {p : SquadPlayer}
    (h11 : st.starters.length ≠ 11) (hp : p.position = 2) (hc : st.n_def < 5) :
    fillStep st p = { st with starters := st.starters ++ [p], n_def := st.n_def + 1 } := by
  simp [fillStep, h11, hp, hc]

theorem fillStep_add3 {st : FillState} {p : SquadPlayer}
    (h11 : st.starters.length ≠ 11) (hp : p.position = 3) (hc : st.n_mid < 5) :
    fillStep st p = { st with starters := st.starters ++ [p], n_mid := st.n_mid + 1 } := by
  simp [fillStep, h11, hp, hc]

theorem fillStep_add4 {st : FillState} {p : SquadPlayer}
    (h11 : st.starters.length ≠ 11) (hp : p.position = 4) (hc : st.n_fwd < 3) :
    fillStep st p = { st with starters := st.starters ++ [p], n_fwd := st.n_fwd + 1 } := by
  simp [fillStep, h11, hp, hc]

theorem fillStep_cases (st : FillState) (p : SquadPlayer) :
    ((fillStep st p).starters = st.starters ++ [p] ∧ (fillStep st p).bench = st.bench)
      ∨ ((fillStep st p).starters = st.starters
          ∧ (fillStep st p).bench = st.bench ++ [p]) := by
  unfold fillStep
  split_ifs <;> simp

theorem countP_cons_le (pr : SquadPlayer → Bool) (a : SquadPlayer)
    (l : List SquadPlayer) : l.countP pr ≤ (a :: l).countP pr := by
  rw [List.countP_cons]
  exact Nat.le_add_right _ _

theorem fill_run (l : List SquadPlayer) :
    ∀ st : FillState, st.starters.length ≤ 11 →
      l.countP (fun p => p.position == 2) + st.n_def ≤ 5 →
      l.countP (fun p => p.position == 3) + st.n_mid ≤ 5 →
      l.countP (fun p => p.position == 4) + st.n_fwd ≤ 3 →
      (∀ p ∈ l, p.position = 2 ∨ p.position = 3 ∨ p.position = 4) →
      (l.foldl fillStep st).starters = st.starters ++ l.take (11 - st.starters.length)
        ∧ (l.foldl fillStep st).bench = st.bench ++ l.drop (11 - st.starters.length) := by
  induction l with
  | nil => intro st _ _ _ _ _; simp
  | cons p l ih =>
    intro st hs h2 h3 h4 hp
    have hpl : ∀ q ∈ l, q.position = 2 ∨ q.position = 3 ∨ q.position = 4 :=
      fun q hq => hp q (List.mem_cons_of_mem _ hq)
    have hc2 := countP_cons_le (fun q => q.position == 2) p l
    have hc3 := countP_cons_le (fun q => q.position == 3) p l
    have hc4 := countP_cons_le (fun q => q.position == 4) p l
    rw [List.foldl_cons]
    by_cases h11 : st.starters.length = 11
    · rw [fillStep_full h11]
      obtain ⟨ihs, ihb⟩ := ih { st with bench := st.bench ++ [p] } hs
        (show l.countP (fun q => q.position == 2) + st.n_def ≤ 5 by omega)
        (show l.countP (fun q => q.position == 3) + st.n_mid ≤ 5 by omega)
        (show l.countP (fun q => q.position == 4) + st.n_fwd ≤ 3 by omega)
        hpl
      refine ⟨?_, ?_⟩
      · rw [ihs]; simp [h11]
      · rw [ihb]; simp [h11]
    · have hlt : st.starters.length < 11 := lt_of_le_of_ne hs h11
      have hsub : 11 - st.starters.length = (11 - (st.starters.length + 1)) + 1 := by omega
      have hlen : ({ st with starters := st.starters ++ [p] } : FillState).starters.length
          = st.starters.length + 1 := by simp
      rcases hp p (List.mem_cons_self p l) with hpk | hpk | hpk
      · have hcnt : (p :: l).countP (fun q => q.position == 2)
            = l.countP (fun q => q.position == 2) + 1 := by
          rw [List.countP_cons]; simp [hpk]
        have hnd : st.n_def < 5 := by omega
        rw [fillStep_add2 h11 hpk hnd]
        obtain ⟨ihs, ihb⟩ :=
          ih { st with starters := st.starters ++ [p], n_def := st.n_def + 1 }
          (show (st.starters ++ [p]).length ≤ 11 by simp; omega)
          (show l.countP (fun q => q.position == 2) + (st.n_def + 1) ≤ 5 by omega)
          (show l.countP (fun q => q.position == 3) + st.n_mid ≤ 5 by omega)
          (show l.countP (fun q => q.position == 4) + st.n_fwd ≤ 3 by omega)
          hpl
        refine ⟨?_, ?_⟩
        · rw [ihs]
          simp only [List.length_append, List.length_cons, List.length_nil,
            Nat.zero_add]
          rw [hsub, List.take_succ_cons, List.append_assoc]
          rfl
        · rw [ihb]
          simp only [List.length_append, List.length_cons, List.length_nil,
            Nat.zero_add]
          rw [hsub, List.drop_succ_cons]
      · have hcnt : (p :: l).countP (fun q => q.position == 3)
            = l.countP (fun q => q.position == 3) + 1 := by
          rw [List.countP_cons]; simp [hpk]
        have hnm : st.n_mid < 5 := by omega
        rw [fillStep_add3 h11 hpk hnm]
        obtain ⟨ihs, ihb⟩ :=
          ih { st with starters := st.starters ++ [p], n_mid := st.n_mid + 1 }
          (show (st.starters ++ [p]).length ≤ 11 by simp; omega)
          (show l.countP (fun q => q.position == 2) + st.n_def ≤ 5 by omega)
          (show l.countP (fun q => q.position == 3) + (st.n_mid + 1) ≤ 5 by omega)
          (show l.countP (fun q => q.position == 4) + st.n_fwd ≤ 3 by omega)
          hpl
        refine ⟨?_, ?_⟩
        · rw [ihs]
          simp only [List.length_append, List.length_cons, List.length_nil,
            Nat.zero_add]
          rw [hsub, List.take_succ_cons, List.append_assoc]
          rfl
        · rw [ihb]
          simp only [List.length_append, List.length_cons, List.length_nil,
            Nat.zero_add]
          rw [hsub, List.drop_succ_cons]
      · have hcnt : (p :: l).countP (fun q => q.position == 4)
            = l.countP (fun q => q.position == 4) + 1 := by
          rw [List.countP_cons]; simp [hpk]
        have hnf : st.n_fwd < 3 := by omega
        rw [fillStep_add4 h11 hpk hnf]
        obtain ⟨ihs, ihb⟩ :=
          ih { st with starters := st.starters ++ [p], n_fwd := st.n_fwd + 1 }
          (show (st.starters ++ [p]).length ≤ 11 by simp; omega)
          (show l.countP (fun q => q.position == 2) + st.n_def ≤ 5 by omega)
          (show l.countP (fun q => q.position == 3) + st.n_mid ≤ 5 by omega)
          (show l.countP (fun q => q.position == 4) + (st.n_fwd + 1) ≤ 3 by omega)
          hpl
        refine ⟨?_, ?_⟩
        · rw [ihs]
          simp only [List.length_append, List.length_cons, List.length_nil,
            Nat.zero_add]
          rw [hsub, List.take_succ_cons, List.append_assoc]
          rfl
        · rw [ihb]
          simp only [List.length_append, List.length_cons, List.length_nil,
            Nat.zero_add]
          rw [hsub, List.drop_succ_cons]

theorem fill_sub (l : List SquadPlayer) :
    ∀ st : FillState, ∃ s t : List SquadPlayer,
      s.Sublist l ∧ t.Sublist l
        ∧ (l.foldl fillStep st).starters = st.starters ++ s
        ∧ (l.foldl fillStep st).bench = st.bench ++ t := by
  induction l with
  | nil => intro st; exact ⟨[], [], List.Sublist.refl _, List.Sublist.refl _, by simp, by simp⟩
  | cons p l ih =>
    intro st
    rw [List.foldl_cons]
    obtain ⟨s, t, hsl, htl, hfs, hfb⟩ := ih (fillStep st p)
    rcases fillStep_cases st p with ⟨hs, hb⟩ | ⟨hs, hb⟩
    · refine ⟨p :: s, t, hsl.cons₂ p, htl.cons p, ?_, ?_⟩
      · rw [hfs, hs, List.append_assoc]; rfl
      · rw [hfb, hb]
    · refine ⟨s, p :: t, hsl.cons p, htl.cons₂ p, ?_, ?_⟩
      · rw [hfs, hs]
      · rw [hfb, hb, List.append_assoc]; rfl

theorem nodup_olSorted {squad : List SquadPlayer} (h : squad.Nodup) :
    (olSorted squad).Nodup :=
  ((List.perm_insertionSort _ squad).nodup_iff).mpr h

theorem nodup_olBucket {squad : List SquadPlayer} (k : Nat) (h : squad.Nodup) :
    (olBucket k squad).Nodup :=
  (nodup_olSorted h).filter _

theorem disjoint_of_pos {l₁ l₂ : List SquadPlayer} {k j : Nat}
    (h₁ : ∀ p ∈ l₁, p.position = k) (h₂ : ∀ p ∈ l₂, p.position = j)
    (hne : k ≠ j) : l₁.Disjoint l₂ :=
  fun p hp₁ hp₂ => hne (by rw [← h₁ p hp₁, h₂ p hp₂])

theorem disjoint_take_drop_of_nodup {l : List SquadPlayer} (h : l.Nodup) (n : Nat) :
    (l.take n).Disjoint (l.drop n) := by
  have h2 := h
  rw [← List.take_append_drop n l, List.nodup_append] at h2
  exact h2.2.2

theorem nodup_olStarters1 {squad : List SquadPlayer} (h : squad.Nodup) :
    (olStarters1 squad).Nodup := by
  unfold olStarters1
  have n1 : ((olBucket 1 squad).take 1).Nodup :=
    (List.take_sublist _ _).nodup (nodup_olBucket 1 h)
  have n2 : ((olBucket 2 squad).take 3).Nodup :=
    (List.take_sublist _ _).nodup (nodup_olBucket 2 h)
  have n3 : ((olBucket 3 squad).take 2).Nodup :=
    (List.take_sublist _ _).nodup (nodup_olBucket 3 h)
  have n4 : ((olBucket 4 squad).take 1).Nodup :=
    (List.take_sublist _ _).nodup (nodup_olBucket 4 h)
  refine List.nodup_append.mpr ⟨List.nodup_append.mpr
    ⟨List.nodup_append.mpr ⟨n1, n2, ?_⟩, n3, ?_⟩, n4, ?_⟩
  · exact disjoint_of_pos (fun p hp => mem_take_olBucket hp)
      (fun p hp => mem_take_olBucket hp) (by decide)
  · refine List.disjoint_append_left.mpr ⟨?_, ?_⟩
    · exact disjoint_of_pos (fun p hp => mem_take_olBucket hp)
        (fun p hp => mem_take_olBucket hp) (by decide)
    · exact disjoint_of_pos (fun p hp => mem_take_olBucket hp)
        (fun p hp => mem_take_olBucket hp) (by decide)
  · refine List.disjoint_append_left.mpr ⟨List.disjoint_append_left.mpr ⟨?_, ?_⟩, ?_⟩
    · exact disjoint_of_pos (fun p hp => mem_take_olBucket hp)
        (fun p hp => mem_take_olBucket hp) (by decide)
    · exact disjoint_of_pos (fun p hp => mem_take_olBucket hp)
        (fun p hp => mem_take_olBucket hp) (by decide)
    · exact disjoint_of_pos (fun p hp => mem_take_olBucket hp)
        (fun p hp => mem_take_olBucket hp) (by decide)

theorem nodup_olRemaining {squad : List SquadPlayer} (h : squad.Nodup) :
    (olRemaining squad).Nodup := by
  unfold olRemaining sortByXpDesc
  refine ((List.perm_insertionSort _ _).nodup_iff).mpr ?_
  have n2 : ((olBucket 2 squad).drop 3).Nodup :=
    (List.drop_sublist _ _).nodup (nodup_olBucket 2 h)
  have n3 : ((olBucket 3 squad).drop 2).Nodup :=
    (List.drop_sublist _ _).nodup (nodup_olBucket 3 h)
  have n4 : ((olBucket 4 squad).drop 1).Nodup :=
    (List.drop_sublist _ _).nodup (nodup_olBucket 4 h)
  refine List.nodup_append.mpr ⟨List.nodup_append.mpr ⟨n2, n3, ?_⟩, n4, ?_⟩
  · exact disjoint_of_pos (fun p hp => mem_drop_olBucket hp)
      (fun p hp => mem_drop_olBucket hp) (by decide)
  · refine List.disjoint_append_left.mpr ⟨?_, ?_⟩
    · exact disjoint_of_pos (fun p hp => mem_drop_olBucket hp)
        (fun p hp => mem_drop_olBucket hp) (by decide)
    · exact disjoint_of_pos (fun p hp => mem_drop_olBucket hp)
        (fun p hp => mem_drop_olBucket hp) (by decide)

theorem disjoint_olStarters1_olRemaining {squad : List SquadPlayer}
    (h : squad.Nodup) : (olStarters1 squad).Disjoint (olRemaining squad) := by
  intro p hp1 hp2
  have hp1' : p ∈ (olBucket 1 squad).take 1 ∨ p ∈ (olBucket 2 squad).take 3
      ∨ p ∈ (olBucket 3 squad).take 2 ∨ p ∈ (olBucket 4 squad).take 1 := by
    unfold olStarters1 at hp1
    simpa [List.mem_append, or_assoc] using hp1
  rcases mem_olRemaining hp2 with h2 | h2 | h2 <;>
    rcases hp1' with h1 | h1 | h1 | h1 <;>
    first
      | exact disjoint_take_drop_of_nodup (nodup_olBucket _ h) _ h1 h2
      | (have e1 := mem_take_olBucket h1
         have e2 := mem_drop_olBucket h2
         omega)

theorem nodup_olFilled_starters {squad : List SquadPlayer} (h : squad.Nodup) :
    (olFilled squad).starters.Nodup := by
  unfold olFilled
  obtain ⟨s, t, hsl, htl, hfs, hfb⟩ := fill_sub (olRemaining squad)
    { starters := olStarters1 squad
      bench := olBench0 squad
      n_def := ((olStarters1 squad).filter (fun p => p.position == 2)).length
      n_mid := ((olStarters1 squad).filter (fun p => p.position == 3)).length
      n_fwd := ((olStarters1 squad).filter (fun p => p.position == 4)).length }
  rw [hfs]
  exact List.nodup_append.mpr ⟨nodup_olStarters1 h, hsl.nodup (nodup_olRemaining h),
    fun a ha hb => disjoint_olStarters1_olRemaining h ha (hsl.subset hb)⟩

theorem olStarters1_facts {squad : List SquadPlayer}
    (hb1 : (olBucket 1 squad).length = 2) (hb2 : (olBucket 2 squad).length = 5)
    (hb3 : (olBucket 3 squad).length = 5) (hb4 : (olBucket 4 squad).length = 3) :
    (olStarters1 squad).length = 7
      ∧ ((olStarters1 squad).filter (fun p => p.position == 2)).length = 3
      ∧ ((olStarters1 squad).filter (fun p => p.position == 3)).length = 2
      ∧ ((olStarters1 squad).filter (fun p => p.position == 4)).length = 1
      ∧ (olStarters1 squad).countP (fun p => p.position == 1) = 1 := by
  have t1 : ∀ p ∈ (olBucket 1 squad).take 1, p.position = 1 :=
    fun p hp => mem_take_olBucket hp
  have t2 : ∀ p ∈ (olBucket 2 squad).take 3, p.position = 2 :=
    fun p hp => mem_take_olBucket hp
  have t3 : ∀ p ∈ (olBucket 3 squad).take 2, p.position = 3 :=
    fun p hp => mem_take_olBucket hp
  have t4 : ∀ p ∈ (olBucket 4 squad).take 1, p.position = 4 :=
    fun p hp => mem_take_olBucket hp
  refine ⟨?_, ?_, ?_, ?_, ?_⟩
  · unfold olStarters1
    simp [List.length_append, List.length_take, hb1, hb2, hb3, hb4]
  · unfold olStarters1
    rw [List.filter_append, List.filter_append, List.filter_append,
      filter_none_pos t1 (by decide), filter_all_pos t2,
      filter_none_pos t3 (by decide), filter_none_pos t4 (by decide)]
    simp [List.length_take, hb2]
  · unfold olStarters1
    rw [List.filter_append, List.filter_append, List.filter_append,
      filter_none_pos t1 (by decide), filter_none_pos t2 (by decide),
      filter_all_pos t3, filter_none_pos t4 (by decide)]
    simp [List.length_take, hb3]
  · unfold olStarters1
    rw [List.filter_append, List.filter_append, List.filter_append,
      filter_none_pos t1 (by decide), filter_none_pos t2 (by decide),
      filter_none_pos t3 (by decide), filter_all_pos t4]
    simp [List.length_take, hb4]
  · unfold olStarters1
    rw [List.countP_append, List.countP_append, List.countP_append,
      countP_all_pos t1, countP_none_pos t2 (by decide),
      countP_none_pos t3 (by decide), countP_none_pos t4 (by decide)]
    simp [List.length_take, hb1]

theorem olRemaining_facts {squad : List SquadPlayer}
    (hb2 : (olBucket 2 squad).length = 5) (hb3 : (olBucket 3 squad).length = 5)
    (hb4 : (olBucket 4 squad).length = 3) :
    (olRemaining squad).length = 7
      ∧ (olRemaining squad).countP (fun p => p.position == 2) = 2
      ∧ (olRemaining squad).countP (fun p => p.position == 3) = 3
      ∧ (olRemaining squad).countP (fun p => p.position == 4) = 2
      ∧ (olRemaining squad).countP (fun p => p.position == 1) = 0 := by
  have d2 : ∀ p ∈ (olBucket 2 squad).drop 3, p.position = 2 :=
    fun p hp => mem_drop_olBucket hp
  have d3 : ∀ p ∈ (olBucket 3 squad).drop 2, p.position = 3 :=
    fun p hp => mem_drop_olBucket hp
  have d4 : ∀ p ∈ (olBucket 4 squad).drop 1, p.position = 4 :=
    fun p hp => mem_drop_olBucket hp
  have hperm : (olRemaining squad).Perm ((olBucket 2 squad).drop 3
      ++ (olBucket 3 squad).drop 2 ++ (olBucket 4 squad).drop 1) :=
    List.perm_insertionSort _ _
  refine ⟨?_, ?_, ?_, ?_, ?_⟩
  · rw [hperm.length_eq]
    simp [List.length_append, List.length_drop, hb2, hb3, hb4]
  · rw [hperm.countP_eq, List.countP_append, List.countP_append,
      countP_all_pos d2, countP_none_pos d3 (by decide),
      countP_none_pos d4 (by decide)]
    simp [List.length_drop, hb2]
  · rw [hperm.countP_eq, List.countP_append, List.countP_append,
      countP_none_pos d2 (by decide), countP_all_pos d3,
      countP_none_pos d4 (by decide)]
    simp [List.length_drop, hb3]
  · rw [hperm.countP_eq, List.countP_append, List.countP_append,
      countP_none_pos d2 (by decide), countP_none_pos d3 (by decide),
      countP_all_pos d4]
    simp [List.length_drop, hb4]
  · rw [hperm.countP_eq, List.countP_append, List.countP_append,
      countP_none_pos d2 (by decide), countP_none_pos d3 (by decide),
      countP_none_pos d4 (by decide)]

theorem olFilled_valid {squad : List SquadPlayer}
    (hb1 : (olBucket 1 squad).length = 2) (hb2 : (olBucket 2 squad).length = 5)
    (hb3 : (olBucket 3 squad).length = 5) (hb4 : (olBucket 4 squad).length = 3) :
    (olFilled squad).starters = olStarters1 squad ++ (olRemaining squad).take 4
      ∧ (olFilled squad).bench = olBench0 squad ++ (olRemaining squad).drop 4 := by
  obtain ⟨hs1len, hf2, hf3, hf4, hcp1⟩ := olStarters1_facts hb1 hb2 hb3 hb4
  obtain ⟨hrlen, hr2, hr3, hr4, hr1⟩ := olRemaining_facts hb2 hb3 hb4
  have key := fill_run (olRemaining squad)
    { starters := olStarters1 squad
      bench := olBench0 squad
      n_def := ((olStarters1 squad).filter (fun p => p.position == 2)).length
      n_mid := ((olStarters1 squad).filter (fun p => p.position == 3)).length
      n_fwd := ((olStarters1 squad).filter (fun p => p.position == 4)).length }
    (show (olStarters1 squad).length ≤ 11 by omega)
    (show (olRemaining squad).countP (fun p => p.position == 2)
        + ((olStarters1 squad).filter (fun p => p.position == 2)).length ≤ 5 by omega)
    (show (olRemaining squad).countP (fun p => p.position == 3)
        + ((olStarters1 squad).filter (fun p => p.position == 3)).length ≤ 5 by omega)
    (show (olRemaining squad).countP (fun p => p.position == 4)
        + ((olStarters1 squad).filter (fun p => p.position == 4)).length ≤ 3 by omega)
    (fun p hp => mem_olRemaining_pos hp)
  obtain ⟨hst, hbe⟩ := key
  have hsub : 11 - (olStarters1 squad).length = 4 := by omega
  unfold olFilled
  constructor
  · rw [hst]
    simp only [hsub]
  · rw [hbe]
    simp only [hsub]

/-- C1: for every 15-player squad with 2 GK, at least 5 DEF, at least 5 MID
and at least 3 FWD, `_optimize_lineup` returns exactly 11 starters and 4
bench members, and the starters' position counts satisfy exactly 1 GK,
between 3 and 5 DEF, between 2 and 5 MID, and between 1 and 3 FWD. -/
theorem claim1_lineup_counts (squad : List SquadPlayer)
    (hlen : squad.length = 15) (h1 : posCount 1 squad = 2)
    (h2 : 5 ≤ posCount 2 squad) (h3 : 5 ≤ posCount 3 squad)
    (h4 : 3 ≤ posCount 4 squad) :
    (optimize_lineup squad).starters.length = 11
      ∧ (optimize_lineup squad).bench.length = 4
      ∧ posCount 1 (optimize_lineup squad).starters = 1
      ∧ 3 ≤ posCount 2 (optimize_lineup squad).starters
      ∧ posCount 2 (optimize_lineup squad).starters ≤ 5
      ∧ 2 ≤ posCount 3 (optimize_lineup squad).starters
      ∧ posCount 3 (optimize_lineup squad).starters ≤ 5
      ∧ 1 ≤ posCount 4 (optimize_lineup squad).starters
      ∧ posCount 4 (optimize_lineup squad).starters ≤ 3 := by
  have hsum := posCount_sum_le squad
  have hc2 : posCount 2 squad = 5 := by omega
  have hc3 : posCount 3 squad = 5 := by omega
  have hc4 : posCount 4 squad = 3 := by omega
  have hb1 : (olBucket 1 squad).length = 2 := by rw [olBucket_length]; exact h1
  have hb2 : (olBucket 2 squad).length = 5 := by rw [olBucket_length]; exact hc2
  have hb3 : (olBucket 3 squad).length = 5 := by rw [olBucket_length]; exact hc3
  have hb4 : (olBucket 4 squad).length = 3 := by rw [olBucket_length]; exact hc4
  obtain ⟨hs1len, hf2, hf3, hf4, hcp1⟩ := olStarters1_facts hb1 hb2 hb3 hb4
  obtain ⟨hrlen, hr2, hr3, hr4, hr1⟩ := olRemaining_facts hb2 hb3 hb4
  obtain ⟨hst, hbe⟩ := olFilled_valid hb1 hb2 hb3 hb4
  have hperm : (optimize_lineup squad).starters.Perm (olFilled squad).starters :=
    List.perm_insertionSort _ _
  have htklen : ((olRemaining squad).take 4).length = 4 := by
    rw [List.length_take, hrlen]; decide
  have hs2cp : (olStarters1 squad).countP (fun p => p.position == 2) = 3 := by
    rw [List.countP_eq_length_filter]; exact hf2
  have hs3cp : (olStarters1 squad).countP (fun p => p.position == 3) = 2 := by
    rw [List.countP_eq_length_filter]; exact hf3
  have hs4cp : (olStarters1 squad).countP (fun p => p.position == 4) = 1 := by
    rw [List.countP_eq_length_filter]; exact hf4
  have hk1 := (List.take_sublist 4 (olRemaining squad)).countP_le
    (fun p => p.position == 1)
  have hk2 := (List.take_sublist 4 (olRemaining squad)).countP_le
    (fun p => p.position == 2)
  have hk3 := (List.take_sublist 4 (olRemaining squad)).countP_le
    (fun p => p.position == 3)
  have hk4 := (List.take_sublist 4 (olRemaining squad)).countP_le
    (fun p => p.position == 4)
  have hcount : ∀ k : Nat, posCount k (optimize_lineup squad).starters
      = (olStarters1 squad).countP (fun p => p.position == k)
        + ((olRemaining squad).take 4).countP (fun p => p.position == k) := by
    intro k
    unfold posCount
    rw [hperm.countP_eq, hst, List.countP_append]
  have hbench0 : (olBench0 squad).length = 1 := by
    unfold olBench0
    rw [if_pos (by omega : 1 < (olBucket 1 squad).length)]
    rw [List.length_drop, hb1]
  refine ⟨?_, ?_, ?_, ?_, ?_, ?_, ?_, ?_, ?_⟩
  · rw [hperm.length_eq, hst, List.length_append, hs1len, htklen]
  · show (olFilled squad).bench.length = 4
    rw [hbe, List.length_append, hbench0, List.length_drop, hrlen]
  · rw [hcount 1, hcp1]; omega
  · rw [hcount 2, hs2cp]; omega
  · rw [hcount 2, hs2cp]; omega
  · rw [hcount 3, hs3cp]; omega
  · rw [hcount 3, hs3cp]; omega
  · rw [hcount 4, hs4cp]; omega
  · rw [hcount 4, hs4cp]; omega

/-- Witness for C1: the unit-test squad (2 GK, 5 DEF, 5 MID, 3 FWD)
satisfies the hypotheses, and the optimizer returns an 11/4 split with one
starting goalkeeper. -/
theorem claim1_lineup_counts_w :
    squadEx.length = 15 ∧ posCount 1 squadEx = 2 ∧ 5 ≤ posCount 2 squadEx
      ∧ 5 ≤ posCount 3 squadEx ∧ 3 ≤ posCount 4 squadEx
      ∧ (optimize_lineup squadEx).starters.length = 11
      ∧ (optimize_lineup squadEx).bench.length = 4
      ∧ posCount 1 (optimize_lineup squadEx).starters = 1 :=
  ⟨by with_unfolding_all decide, by with_unfolding_all decide,
   by with_unfolding_all decide, by with_unfolding_all decide,
   by with_unfolding_all decide,
   (claim1_lineup_counts squadEx (by with_unfolding_all decide)
     (by with_unfolding_all decide) (by with_unfolding_all decide)
     (by with_unfolding_all decide) (by with_unfolding_all decide)).1,
   (claim1_lineup_counts squadEx (by with_unfolding_all decide)
     (by with_unfolding_all decide) (by with_unfolding_all decide)
     (by with_unfolding_all decide) (by with_unfolding_all decide)).2.1,
   (claim1_lineup_counts squadEx (by with_unfolding_all decide)
     (by with_unfolding_all decide) (by with_unfolding_all decide)
     (by with_unfolding_all decide) (by with_unfolding_all decide)).2.2.1⟩

/-- C7: for every duplicate-free squad on which `_optimize_lineup` yields
at least two starters, the returned captain and vice-captain are distinct
members of the returned starters list; with fewer than two starters the
vice-captain is unset. -/
theorem claim7_captaincy (squad : List SquadPlayer) (hnd : squad.Nodup) :
    (2 ≤ (optimize_lineup squad).starters.length →
      ∃ c v, (optimize_lineup squad).captain = some c
        ∧ (optimize_lineup squad).vice_captain = some v
        ∧ c ∈ (optimize_lineup squad).starters
        ∧ v ∈ (optimize_lineup squad).starters
        ∧ c ≠ v)
    ∧ ((optimize_lineup squad).starters.length < 2 →
        (optimize_lineup squad).vice_captain = none) := by
  have hnodup : (optimize_lineup squad).starters.Nodup := by
    have hperm : (optimize_lineup squad).starters.Perm (olFilled squad).starters :=
      List.perm_insertionSort _ _
    exact hperm.nodup_iff.mpr (nodup_olFilled_starters hnd)
  have hcap : (optimize_lineup squad).captain
      = (optimize_lineup squad).starters.head? := rfl
  have hvice : (optimize_lineup squad).vice_captain
      = (optimize_lineup squad).starters[1]? := rfl
  constructor
  · intro hlen2
    cases hL : (optimize_lineup squad).starters with
    | nil => rw [hL] at hlen2; simp at hlen2
    | cons a rest =>
      cases hrest : rest with
      | nil => rw [hL, hrest] at hlen2; simp at hlen2
      | cons b t =>
        rw [hrest] at hL
        refine ⟨a, b, ?_, ?_, ?_, ?_, ?_⟩
        · rw [hcap, hL]; rfl
        · rw [hvice, hL]; simp
        · exact List.mem_cons_self a _
        · exact List.mem_cons_of_mem a (List.mem_cons_self b t)
        · rw [hL] at hnodup
          intro hab
          exact (List.nodup_cons.mp hnodup).1 (hab ▸ List.mem_cons_self b t)
  · intro hlt
    rw [hvice]
    exact List.getElem?_eq_none (by omega)

/-- Witness for C7: a duplicate-free two-player squad produces two
starters with distinct captain and vice-captain. -/
theorem claim7_captaincy_w :
    ([pLow, pHigh] : List SquadPlayer).Nodup
      ∧ 2 ≤ (optimize_lineup [pLow, pHigh]).starters.length
      ∧ ∃ c v, (optimize_lineup [pLow, pHigh]).captain = some c
          ∧ (optimize_lineup [pLow, pHigh]).vice_captain = some v
          ∧ c ∈ (optimize_lineup [pLow, pHigh]).starters
          ∧ v ∈ (optimize_lineup [pLow, pHigh]).starters
          ∧ c ≠ v :=
  ⟨by with_unfolding_all decide, by with_unfolding_all decide,
   (claim7_captaincy [pLow, pHigh] (by with_unfolding_all decide)).1
     (by with_unfolding_all decide)⟩

/-! ### Claims about the fixture-difficulty resolver -/

theorem customFdrValue_none {custom : CustomFdr} {name : String} (b : Bool)
    (h : List.lookup name custom = none) : customFdrValue custom name b = none := by
  unfold customFdrValue
  split_ifs
  · rfl
  · rw [h]
  · rw [h]

theorem gfd_custom (custom : CustomFdr) (f : Fixture) (team_id : Nat)
    (teams : TeamsMap) (opp : Team) (v : Int)
    (hlook : List.lookup (fixtureOpponent f team_id).1 teams = some opp)
    (hcv : customFdrValue custom opp.name (fixtureOpponent f team_id).2 = some v) :
    get_fixture_difficulty custom f team_id teams = some v := by
  simp only [get_fixture_difficulty]
  rw [hlook]
  dsimp only
  rw [hcv]

theorem gfd_no_custom (custom : CustomFdr) (f : Fixture) (team_id : Nat)
    (teams : TeamsMap) (opp : Team)
    (hlook : List.lookup (fixtureOpponent f team_id).1 teams = some opp)
    (hcv : customFdrValue custom opp.name (fixtureOpponent f team_id).2 = none) :
    get_fixture_difficulty custom f team_id teams
      = some (if (opp.strength_d + opp.strength_a) / 2 < 1050 then 2
              else if (opp.strength_d + opp.strength_a) / 2 < 1150 then 3
              else if (opp.strength_d + opp.strength_a) / 2 < 1250 then 4
              else 5) := by
  simp only [get_fixture_difficulty]
  rw [hlook]
  dsimp only
  rw [hcv]
  simp [ite_self]

/-- C2 counterexample: with an override table carrying the out-of-range
away value 9, the resolver returns 9 — overrides are not clamped to
the interval from 1 to 5. -/
theorem claim2_range_cex :
    get_fixture_difficulty cexFdr fxEx 1 teamsEx = some 9
      ∧ ¬((1 : ℤ) ≤ 9 ∧ (9 : ℤ) ≤ 5) := by
  with_unfolding_all decide

/-- C2 amended: when the opponent is present in the team index and no
override value applies, the computed default difficulty always lies in
the interval from 2 to 5 (hence within 1 to 5); an applicable override
value is returned without clamping, so the result lies in the range only
when the stored override does. -/
theorem claim2_range_amended (custom : CustomFdr) (f : Fixture) (team_id : Nat)
    (teams : TeamsMap) (opp : Team)
    (hlook : List.lookup (fixtureOpponent f team_id).1 teams = some opp)
    (hnone : customFdrValue custom opp.name (fixtureOpponent f team_id).2 = none) :
    ∃ d, get_fixture_difficulty custom f team_id teams = some d
      ∧ 2 ≤ d ∧ d ≤ 5 := by
  rw [gfd_no_custom custom f team_id teams opp hlook hnone]
  refine ⟨_, rfl, ?_, ?_⟩ <;> split_ifs <;> norm_num

set_option maxRecDepth 4000 in
/-- Witness for C2 (amended): an empty override table with a known
opponent yields a default difficulty inside the range from 2 to 5. -/
theorem claim2_range_amended_w :
    List.lookup (fixtureOpponent fxEx 1).1 teamsEx = some teamOpp
      ∧ customFdrValue [] teamOpp.name (fixtureOpponent fxEx 1).2 = none
      ∧ ∃ d, get_fixture_difficulty [] fxEx 1 teamsEx = some d ∧ 2 ≤ d ∧ d ≤ 5 :=
  ⟨by with_unfolding_all decide, by with_unfolding_all decide,
   claim2_range_amended [] fxEx 1 teamsEx teamOpp (by with_unfolding_all decide)
     (by with_unfolding_all decide)⟩

/-- C4: when the opponent's name has an override entry, the resolver
returns the entry selected by the opponent's venue — the opponent's away
value when the subject is home, the opponent's home value when the
subject is away — with no blending with the computed default. -/
theorem claim4_override_direction (custom : CustomFdr) (f : Fixture) (team_id : Nat)
    (teams : TeamsMap) (opp : Team) (entry : FdrEntry)
    (hlook : List.lookup (fixtureOpponent f team_id).1 teams = some opp)
    (hentry : List.lookup opp.name custom = some entry) :
    (f.team_h = team_id → ∀ v, entry.A = some v →
        get_fixture_difficulty custom f team_id teams = some v)
      ∧ (f.team_h ≠ team_id → ∀ v, entry.H = some v →
          get_fixture_difficulty custom f team_id teams = some v) := by
  have hne : custom ≠ [] := by
    intro hc
    rw [hc] at hentry
    simp at hentry
  constructor
  · intro hh v hv
    refine gfd_custom custom f team_id teams opp v hlook ?_
    have hop : (fixtureOpponent f team_id).2 = true := by
      unfold fixtureOpponent
      rw [if_pos hh]
    rw [hop]
    unfold customFdrValue
    rw [if_neg hne, hentry]
    simp [hv]
  · intro hh v hv
    refine gfd_custom custom f team_id teams opp v hlook ?_
    have hop : (fixtureOpponent f team_id).2 = false := by
      unfold fixtureOpponent
      rw [if_neg hh]
    rw [hop]
    unfold customFdrValue
    rw [if_neg hne, hentry]
    simp [hv]

set_option maxRecDepth 4000 in
/-- Witness for C4: with the override `Opp -> (H 5, A 4)`, asking for team
1's difficulty when team 1 is away (the opponent at home) yields 5, and
when team 1 is home (the opponent away) yields 4. -/
theorem claim4_override_direction_w :
    List.lookup (fixtureOpponent fxAway 1).1 teamsEx = some teamOpp
      ∧ List.lookup teamOpp.name c4Fdr = some { H := some 5, A := some 4 }
      ∧ get_fixture_difficulty c4Fdr fxAway 1 teamsEx = some 5
      ∧ get_fixture_difficulty c4Fdr fxEx 1 teamsEx = some 4 :=
  ⟨by with_unfolding_all decide, by with_unfolding_all decide,
   (claim4_override_direction c4Fdr fxAway 1 teamsEx teamOpp
       { H := some 5, A := some 4 } (by with_unfolding_all decide)
       (by with_unfolding_all decide)).2 (by with_unfolding_all decide) 5 rfl,
   (claim4_override_direction c4Fdr fxEx 1 teamsEx teamOpp
       { H := some 5, A := some 4 } (by with_unfolding_all decide)
       (by with_unfolding_all decide)).1 (by with_unfolding_all decide) 4 rfl⟩

/-- C5 counterexample: under the configuration installed by
`FPLManager.__init__` the fixture multiplier at difficulty 1 is 1.10, not
the 1.16 that the factor 0.08 would give — the 0.08 fallback never
applies because the installed configuration carries 0.05. -/
theorem claim5_factor_cex :
    calculate_fixture_multiplier defaultModelConfig 1 = 11/10
      ∧ calculate_fixture_multiplier defaultModelConfig 1
          ≠ 1 + ((3 - (1 : ℤ) : ℤ) : ℚ) * (8/100) := by
  with_unfolding_all decide

/-- C5 amended: under the default configuration the multiplier equals
`1.0 + (3 - d) * 0.05` for every difficulty d in the range from 1 to 5
(the in-code 0.08 is only a fallback for a missing key and never applies
to the installed configuration), and it is strictly decreasing in d. -/
theorem claim5_factor_amended :
    (∀ d : ℤ, 1 ≤ d → d ≤ 5 →
      calculate_fixture_multiplier defaultModelConfig d
        = 1 + ((3 - d : ℤ) : ℚ) * (5/100))
      ∧ (∀ d₁ d₂ : ℤ, 1 ≤ d₁ → d₁ < d₂ → d₂ ≤ 5 →
          calculate_fixture_multiplier defaultModelConfig d₂
            < calculate_fixture_multiplier defaultModelConfig d₁) := by
  have he : ∀ d : ℤ, calculate_fixture_multiplier defaultModelConfig d
      = 1 + ((3 - d : ℤ) : ℚ) * (5/100) := fun d => rfl
  constructor
  · intro d _ _
    exact he d
  · intro d₁ d₂ _ h12 _
    rw [he d₁, he d₂]
    have hc : (d₁ : ℚ) < (d₂ : ℚ) := by exact_mod_cast h12
    push_cast
    linarith

/-- Witness for C5 (amended): the formula and the strict decrease hold at
difficulties 2 and 3. -/
theorem claim5_factor_amended_w :
    ((1 : ℤ) ≤ 2 ∧ (2 : ℤ) ≤ 5
      ∧ calculate_fixture_multiplier defaultModelConfig 2
          = 1 + ((3 - (2 : ℤ) : ℤ) : ℚ) * (5/100))
      ∧ ((1 : ℤ) ≤ 2 ∧ (2 : ℤ) < 3 ∧ (3 : ℤ) ≤ 5
        ∧ calculate_fixture_multiplier defaultModelConfig 3
            < calculate_fixture_multiplier defaultModelConfig 2) :=
  ⟨⟨by norm_num, by norm_num,
    claim5_factor_amended.1 2 (by norm_num) (by norm_num)⟩,
   ⟨by norm_num, by norm_num, by norm_num,
    claim5_factor_amended.2 2 3 (by norm_num) (by norm_num) (by norm_num)⟩⟩

/-- C10: the computed default difficulty is venue-independent — for an
opponent without an override the resolver returns the same value whether
the subject team is the home or the away side — and `get_processed_teams`
populates the stored strengths from the home-venue fields for every team
with nonzero id. -/
theorem claim10_venue_independent :
    (∀ (custom : CustomFdr) (teams : TeamsMap) (f₁ f₂ : Fixture) (t o : Nat)
        (opp : Team),
      f₁.team_h = t → f₁.team_a = o → f₂.team_h = o → f₂.team_a = t →
      List.lookup o teams = some opp →
      List.lookup opp.name custom = none →
      get_fixture_difficulty custom f₁ t teams
        = get_fixture_difficulty custom f₂ t teams)
    ∧ (∀ (ts : List RawTeam) (t : RawTeam), t ∈ ts → t.id ≠ 0 →
        (t.id, ({ name := t.name, strength_d := t.strength_defence_home,
                  strength_a := t.strength_attack_home,
                  short_name := none } : Team)) ∈ get_processed_teams ts) := by
  constructor
  · intro custom teams f₁ f₂ t o opp h1 h2 h3 h4 hlook hnone
    have hlook1 : List.lookup (fixtureOpponent f₁ t).1 teams = some opp := by
      unfold fixtureOpponent
      rw [if_pos h1]
      dsimp only
      rw [h2]
      exact hlook
    have hlook2 : List.lookup (fixtureOpponent f₂ t).1 teams = some opp := by
      unfold fixtureOpponent
      by_cases ht : f₂.team_h = t
      · rw [if_pos ht]
        dsimp only
        have : f₂.team_a = o := by rw [h4, ← ht, h3]
        rw [this]
        exact hlook
      · rw [if_neg ht]
        dsimp only
        rw [h3]
        exact hlook
    rw [gfd_no_custom custom f₁ t teams opp hlook1 (customFdrValue_none _ hnone),
      gfd_no_custom custom f₂ t teams opp hlook2 (customFdrValue_none _ hnone)]
  · intro ts t ht hid
    unfold get_processed_teams
    refine List.mem_map.mpr ⟨t, ht, ?_⟩
    simp [hid]

set_option maxRecDepth 4000 in
/-- Witness for C10: for the two-team index without overrides, team 1's
difficulty is the same in the home and the away fixture against team 2,
and the processed record of a nonzero-id raw team carries its home
strengths. -/
theorem claim10_venue_independent_w :
    (fxEx.team_h = 1 ∧ fxEx.team_a = 2 ∧ fxAway.team_h = 2 ∧ fxAway.team_a = 1
      ∧ List.lookup 2 teamsEx = some teamOpp
      ∧ List.lookup teamOpp.name ([] : CustomFdr) = none
      ∧ get_fixture_difficulty [] fxEx 1 teamsEx
          = get_fixture_difficulty [] fxAway 1 teamsEx)
      ∧ (rawTeamEx ∈ [rawTeamEx] ∧ rawTeamEx.id ≠ 0
        ∧ (rawTeamEx.id,
            ({ name := rawTeamEx.name
               strength_d := rawTeamEx.strength_defence_home
               strength_a := rawTeamEx.strength_attack_home
               short_name := none } : Team)) ∈ get_processed_teams [rawTeamEx]) :=
  ⟨⟨rfl, rfl, rfl, rfl, by with_unfolding_all decide, rfl,
    claim10_venue_independent.1 [] teamsEx fxEx fxAway 1 2 teamOpp rfl rfl rfl rfl
      (by with_unfolding_all decide) rfl⟩,
   ⟨List.mem_cons_self _ _, by decide,
    claim10_venue_independent.2 [rawTeamEx] rawTeamEx (List.mem_cons_self _ _)
      (by decide)⟩⟩

/-! ### Claims about the expected-points engine and the backtester -/

/-- C8: a squad member with no history record for the replayed gameweek
contributes exactly zero to the gameweek's actual-points sum and exactly
zero to its predicted-points sum — no synthetic fixture is built and
`calculate_xp` over an empty fixture list yields 0. -/
theorem claim8_absent_zero (cfg : ModelConfig) (custom : CustomFdr) (player : XPlayer)
    (teams : TeamsMap) (gw : Nat) (history : List HistoryEntry)
    (captain_id : Option Nat)
    (hno : ∀ h ∈ history, h.round ≠ gw) :
    playerGwContribution cfg custom player teams gw history captain_id
      = some (0, 0) := by
  have hfil : history.filter (fun h => h.round == gw) = [] := by
    rw [List.filter_eq_nil_iff]
    intro a ha
    simp [hno a ha]
  simp only [playerGwContribution, hfil, optionMapList, calculate_xp_nil]
  simp [initXpState]

/-- Witness for C8: a history whose only entry is in round 3 contributes
the pair of zeros when gameweek 5 is replayed. -/
theorem claim8_absent_zero_w :
    (∀ h ∈ [histR3], h.round ≠ 5)
      ∧ playerGwContribution defaultModelConfig [] gkEx teamsEx 5 [histR3] (some 7)
          = some (0, 0) :=
  ⟨by decide, claim8_absent_zero defaultModelConfig [] gkEx teamsEx 5 [histR3]
    (some 7) (by decide)⟩

/-- C3 counterexample: a goalkeeper with empty history and one upcoming
fixture receives a strictly positive total xP — the clean-sheet and save
terms do not depend on history, so the total is not 0. -/
theorem claim3_empty_history_cex :
    (calculate_xp defaultModelConfig [] gkEx teamsEx [fxEx] []).isSome = true
      ∧ (calculate_xp defaultModelConfig [] gkEx teamsEx [fxEx] []).map
          XpState.total_xp ≠ some 0 := by
  with_unfolding_all decide

/-- C3 amended: for forwards (position 4) an empty history does force a
total xP of exactly 0, because the base attacking potential and the
appearance points both default to 0 and a forward's per-fixture points
are entirely proportional to them; for goalkeepers, defenders and
midfielders the history-independent clean-sheet and save terms remain. -/
theorem claim3_empty_history_amended (cfg : ModelConfig) (custom : CustomFdr)
    (player : XPlayer) (teams : TeamsMap) (fixtures : List Fixture) (r : XpState)
    (hpos : player.position = 4)
    (hr : calculate_xp cfg custom player teams fixtures [] = some r) :
    r.total_xp = 0 := by
  simp only [calculate_xp] at hr
  rw [xpBasePotential_nil, xpAppPoints_nil, xpLoop_eq] at hr
  cases houts : optionMapList
      (xpFixtureCore cfg custom player teams 0 0 (calculate_weighted_minutes cfg []))
      (fixtures.take NEXT_N_GW) with
  | none => rw [houts] at hr; simp at hr
  | some outs =>
    rw [houts] at hr
    simp only [Option.map_some', Option.some.injEq] at hr
    have hsum := mapCore_fwd_zero hpos (fixtures.take NEXT_N_GW) outs houts
    have htot := applyList_total outs
      initXpState
    rw [← hr]
    show (outs.foldl applyOutcome
      initXpState).total_xp = 0
    rw [htot, hsum]
    simp [initXpState]

/-- Witness for C3 (amended): a forward with empty history and one
upcoming fixture gets total xP 0. -/
theorem claim3_empty_history_amended_w :
    (calculate_xp defaultModelConfig [] fwdEx teamsEx [fxEx] []).map
      XpState.total_xp = some 0 := by
  cases hc : calculate_xp defaultModelConfig [] fwdEx teamsEx [fxEx] [] with
  | none => exact absurd hc (by with_unfolding_all decide)
  | some r =>
    rw [Option.map_some']
    rw [claim3_empty_history_amended defaultModelConfig [] fwdEx teamsEx [fxEx] r
      rfl hc]

/-- C6 counterexample: the squad list passed to `_optimize_lineup` is
reordered in place (its post-call state differs from the input), and the
fixture records passed to `calculate_xp` gain enrichment keys (their
post-call state differs from the input). -/
theorem claim6_purity_cex :
    (optimize_lineup [pLow, pHigh]).squad_out ≠ [pLow, pHigh]
      ∧ (calculate_xp defaultModelConfig [] gkEx teamsEx [fxEx] []).map
          XpState.fixtures_out ≠ some [fxEx] := by
  with_unfolding_all decide

/-- C6 amended: the mutation is bounded — `_optimize_lineup` only permutes
the squad list in place (the post-call list is a permutation of the
input), and `calculate_xp` only adds the `opponent` and `xp` enrichment
keys to fixture records (every other fixture field is unchanged, in
order). -/
theorem claim6_purity_amended :
    (∀ squad : List SquadPlayer, (optimize_lineup squad).squad_out.Perm squad)
      ∧ (∀ (cfg : ModelConfig) (custom : CustomFdr) (player : XPlayer)
          (teams : TeamsMap) (fixtures : List Fixture) (history : List HistoryEntry)
          (r : XpState),
          calculate_xp cfg custom player teams fixtures history = some r →
          r.fixtures_out.map Fixture.core = fixtures.map Fixture.core) := by
  constructor
  · intro squad
    exact List.perm_insertionSort _ squad
  · intro cfg custom player teams fixtures history r hr
    simp only [calculate_xp] at hr
    rw [xpLoop_eq] at hr
    cases houts : optionMapList
        (xpFixtureCore cfg custom player teams (xpBasePotential cfg player history)
          (xpAppPoints cfg history) (calculate_weighted_minutes cfg history))
        (fixtures.take NEXT_N_GW) with
    | none => rw [houts] at hr; simp at hr
    | some outs =>
      rw [houts] at hr
      simp only [Option.map_some', Option.some.injEq] at hr
      rw [← hr]
      show ((outs.foldl applyOutcome
          initXpState).fixtures_out
          ++ fixtures.drop NEXT_N_GW).map Fixture.core = fixtures.map Fixture.core
      rw [applyList_fixtures]
      simp only [initXpState, List.nil_append, List.map_append, List.map_map]
      rw [show (Fixture.core ∘ FixtureOutcome.fixture_out)
          = (fun o => o.fixture_out.core) from rfl]
      rw [mapCore_fixtures (fixtures.take NEXT_N_GW) outs houts]
      rw [← List.map_append, List.take_append_drop]

/-- Witness for C6 (amended): the two-player squad's post-call list is a
permutation of the input, and the enriched fixture keeps its core fields. -/
theorem claim6_purity_amended_w :
    (optimize_lineup [pLow, pHigh]).squad_out.Perm [pLow, pHigh]
      ∧ (calculate_xp defaultModelConfig [] gkEx teamsEx [fxEx] []).map
          (fun st => st.fixtures_out.map Fixture.core)
            = some ([fxEx].map Fixture.core) := by
  refine ⟨claim6_purity_amended.1 [pLow, pHigh], ?_⟩
  cases hc : calculate_xp defaultModelConfig [] gkEx teamsEx [fxEx] [] with
  | none => exact absurd hc (by with_unfolding_all decide)
  | some r =>
    rw [Option.map_some']
    rw [claim6_purity_amended.2 defaultModelConfig [] gkEx teamsEx [fxEx] [] r hc]

/-- C9: a fixture within the lookahead horizon whose event is absent or 0
still contributes its full per-gameweek xP to the returned total but
produces no entry in the per-gameweek points map and none in the
breakdowns map, so the total can strictly exceed the sum of the values in
the per-gameweek map. -/
theorem claim9_falsy_event :
    (∀ (cfg : ModelConfig) (custom : CustomFdr) (player : XPlayer) (teams : TeamsMap)
        (history : List HistoryEntry) (pre post : List Fixture) (f : Fixture)
        (r : XpState),
      f.event = none ∨ f.event = some 0 →
      pre.length < NEXT_N_GW →
      calculate_xp cfg custom player teams (pre ++ f :: post) history = some r →
      ∃ rf rr, calculate_xp cfg custom player teams [f] history = some rf
        ∧ calculate_xp cfg custom player teams
            (pre ++ post.take (NEXT_N_GW - 1 - pre.length)) history = some rr
        ∧ r.total_xp = rr.total_xp + rf.total_xp
        ∧ r.gw_points = rr.gw_points
        ∧ r.breakdowns = rr.breakdowns)
    ∧ (∃ r : XpState,
        calculate_xp defaultModelConfig [] gkEx teamsEx [fxNoEvent] [] = some r
          ∧ (r.gw_points.map Prod.snd).sum < r.total_xp) := by
  constructor
  · intro cfg custom player teams history pre post f r hev hpre hr
    have hplen : pre.length ≤ 4 := by
      simp only [NEXT_N_GW] at hpre
      omega
    have hk : NEXT_N_GW - pre.length = (NEXT_N_GW - 1 - pre.length) + 1 := by
      simp only [NEXT_N_GW]
      omega
    have htklen : (post.take (NEXT_N_GW - 1 - pre.length)).length
        ≤ NEXT_N_GW - 1 - pre.length := List.length_take_le _ _
    have hlen2 : (pre ++ post.take (NEXT_N_GW - 1 - pre.length)).length ≤ NEXT_N_GW := by
      rw [List.length_append]
      simp only [NEXT_N_GW] at *
      omega
    have htake : (pre ++ f :: post).take NEXT_N_GW
        = pre ++ f :: post.take (NEXT_N_GW - 1 - pre.length) := by
      rw [List.take_append_eq_append_take,
        List.take_of_length_le (by simp only [NEXT_N_GW]; omega), hk,
        List.take_succ_cons]
    simp only [calculate_xp] at hr
    rw [htake, xpLoop_eq] at hr
    cases hm : optionMapList (xpFixtureCore cfg custom player teams
        (xpBasePotential cfg player history) (xpAppPoints cfg history)
        (calculate_weighted_minutes cfg history))
        (pre ++ f :: post.take (NEXT_N_GW - 1 - pre.length)) with
    | none => rw [hm] at hr; simp at hr
    | some outs =>
      rw [hm] at hr
      simp only [Option.map_some', Option.some.injEq] at hr
      rw [optionMapList_append] at hm
      cases hpm : optionMapList (xpFixtureCore cfg custom player teams
          (xpBasePotential cfg player history) (xpAppPoints cfg history)
          (calculate_weighted_minutes cfg history)) pre with
      | none => rw [hpm] at hm; simp at hm
      | some preOuts =>
        rw [hpm] at hm
        simp only [Option.some_bind] at hm
        simp only [optionMapList] at hm
        cases hfm : xpFixtureCore cfg custom player teams
            (xpBasePotential cfg player history) (xpAppPoints cfg history)
            (calculate_weighted_minutes cfg history) f with
        | none => rw [hfm] at hm; simp at hm
        | some of =>
          rw [hfm] at hm
          cases hpost : optionMapList (xpFixtureCore cfg custom player teams
              (xpBasePotential cfg player history) (xpAppPoints cfg history)
              (calculate_weighted_minutes cfg history))
              (post.take (NEXT_N_GW - 1 - pre.length)) with
          | none => rw [hpost] at hm; simp at hm
          | some postOuts =>
            rw [hpost] at hm
            simp only [Option.map_some', Option.some.injEq] at hm
            subst hm
            subst hr
            have hrf : calculate_xp cfg custom player teams [f] history
                = some (applyOutcome initXpState of) := by
              simp only [calculate_xp]
              rw [show ([f] : List Fixture).take NEXT_N_GW = [f] from rfl, xpLoop_eq]
              simp only [optionMapList]
              rw [hfm]
              simp [NEXT_N_GW]
            have hrr : calculate_xp cfg custom player teams
                (pre ++ post.take (NEXT_N_GW - 1 - pre.length)) history
                = some ((preOuts ++ postOuts).foldl applyOutcome
                    initXpState) := by
              simp only [calculate_xp]
              rw [List.take_of_length_le hlen2, xpLoop_eq, optionMapList_append,
                hpm, hpost]
              simp only [Option.some_bind, Option.map_some']
              rw [List.drop_eq_nil_of_le hlen2]
              simp
            refine ⟨_, _, hrf, hrr, ?_, ?_, ?_⟩
            · show ((preOuts ++ of :: postOuts).foldl applyOutcome
                  initXpState).total_xp
                = ((preOuts ++ postOuts).foldl applyOutcome
                    initXpState).total_xp
                  + (applyOutcome initXpState of).total_xp
              rw [applyList_total, applyList_total]
              show 0 + ((preOuts ++ of :: postOuts).map FixtureOutcome.final_xp).sum
                  = 0 + ((preOuts ++ postOuts).map FixtureOutcome.final_xp).sum
                    + (0 + of.final_xp)
              simp only [List.map_append, List.sum_append, List.map_cons,
                List.sum_cons]
              ring
            · show ((preOuts ++ of :: postOuts).foldl applyOutcome
                  initXpState).gw_points
                = ((preOuts ++ postOuts).foldl applyOutcome
                    initXpState).gw_points
              rw [List.foldl_append, List.foldl_append, List.foldl_cons]
              have hmaps := applyOutcome_maps_none
                (preOuts.foldl applyOutcome initXpState)
                (core_entry_falsy hev hfm)
              exact (applyList_maps postOuts _ _ hmaps.1 hmaps.2).1
            · show ((preOuts ++ of :: postOuts).foldl applyOutcome
                  initXpState).breakdowns
                = ((preOuts ++ postOuts).foldl applyOutcome
                    initXpState).breakdowns
              rw [List.foldl_append, List.foldl_append, List.foldl_cons]
              have hmaps := applyOutcome_maps_none
                (preOuts.foldl applyOutcome initXpState)
                (core_entry_falsy hev hfm)
              exact (applyList_maps postOuts _ _ hmaps.1 hmaps.2).2
  · cases hc : calculate_xp defaultModelConfig [] gkEx teamsEx [fxNoEvent] [] with
    | none => exact absurd hc (by with_unfolding_all decide)
    | some r =>
      refine ⟨r, rfl, ?_⟩
      have h2 : (calculate_xp defaultModelConfig [] gkEx teamsEx [fxNoEvent] []).map
          (fun st => decide ((st.gw_points.map Prod.snd).sum < st.total_xp))
            = some true := by
        with_unfolding_all decide
      rw [hc] at h2
      simp only [Option.map_some', Option.some.injEq] at h2
      exact of_decide_eq_true h2

/-- Witness for C9: a single fixture with an absent event key processed
from position 0 of the horizon adds its xP to the total while leaving
both per-gameweek maps untouched. -/
theorem claim9_falsy_event_w :
    (fxNoEvent.event = none ∨ fxNoEvent.event = some 0)
      ∧ ([] : List Fixture).length < NEXT_N_GW
      ∧ ∃ r : XpState,
          calculate_xp defaultModelConfig [] gkEx teamsEx ([] ++ fxNoEvent :: []) []
            = some r
          ∧ ∃ rf rr, calculate_xp defaultModelConfig [] gkEx teamsEx [fxNoEvent] []
              = some rf
            ∧ calculate_xp defaultModelConfig [] gkEx teamsEx
                ([] ++ ([] : List Fixture).take (NEXT_N_GW - 1 - ([] : List Fixture).length)) []
                = some rr
            ∧ r.total_xp = rr.total_xp + rf.total_xp
            ∧ r.gw_points = rr.gw_points
            ∧ r.breakdowns = rr.breakdowns := by
  refine ⟨Or.inl rfl, by decide, ?_⟩
  cases hc : calculate_xp defaultModelConfig [] gkEx teamsEx
      ([] ++ fxNoEvent :: []) [] with
  | none => exact absurd hc (by with_unfolding_all decide)
  | some r =>
    exact ⟨r, rfl, claim9_falsy_event.1 defaultModelConfig [] gkEx teamsEx [] [] []
      fxNoEvent r (Or.inl rfl) (by decide) hc⟩

end FplTool
